import Mathlib

/-!
# chatZ: room lifecycle and message relay of `src/script.js`

A shallow embedding of the `ChatApp` class.  The browser page is a `World`:
the fields of the `ChatApp` object, the parsed value of the `chatRooms` item
of `localStorage`, the pending `setTimeout`/`setInterval` handles of the page
and the error toasts shown so far.  Every method of the class that touches
the store, the session fields or a timer is a function on `World`; rendering
into the DOM (`addMessage`, `loadMessages`, `updateRoomTimer`) has no effect on
these components and is left out.

One handler runs to completion at one instant: every `Date.now()` read inside
one handler call is the parameter `now`.  A handler that can end with an
exception of a built-in (`btoa`, `JSON.parse`) returns `Except`.

The methods work on a store whose `chatRooms` item holds a table of rooms;
section "The store as text" embeds `getRooms`, and the methods that start by
calling it, on the raw item, where `JSON.parse` can fail.
-/

namespace ChatZ

/-! ## Host functions -/

/-- Exceptions raised by the browser built-ins the class calls: `SyntaxError`
of `JSON.parse` and `InvalidCharacterError` of `btoa`. -/
inductive JsError where
  | syntaxError
  | invalidCharacter
  deriving DecidableEq, Repr

/-- Browser built-ins the class calls and the source does not define:
`String.prototype.toUpperCase`, `btoa` (`none` when it raises
`InvalidCharacterError`, as the browser does on a character above U+00FF) and
`Date.prototype.toLocaleTimeString` (as a function of the instant it is
taken at). -/
structure Host where
  toUpperCase : String → String
  btoa : String → Option String
  toLocaleTimeString : Int → String

/-- ECMAScript `WhiteSpace` and `LineTerminator` code points, the characters
`String.prototype.trim` removes. -/
def isJsWhitespace (c : Char) : Bool :=
  let n := c.toNat
  n == 0x9 || n == 0xA || n == 0xB || n == 0xC || n == 0xD || n == 0x20 ||
  n == 0xA0 || n == 0x1680 || (0x2000 ≤ n && n ≤ 0x200A) || n == 0x2028 ||
  n == 0x2029 || n == 0x202F || n == 0x205F || n == 0x3000 || n == 0xFEFF

/-- JavaScript `s.trim()`. -/
def jsTrim (s : String) : String :=
  String.mk ((s.data.dropWhile isJsWhitespace).reverse.dropWhile isJsWhitespace).reverse

/-- JavaScript `s.length`: the number of UTF-16 code units. -/
def jsLength (s : String) : Nat :=
  (s.data.map (fun c => if c.toNat < 0x10000 then 1 else 2)).sum

/-! ## Data model -/

inductive MessageType where
  | user
  | system
  deriving DecidableEq, Repr

/-- A stored message; `username` is absent on system messages. -/
structure Message where
  id : Int
  username : Option String
  content : String
  timestamp : String
  type : MessageType
  deriving DecidableEq, Repr

structure Room where
  code : String
  messages : List Message
  users : List String
  createdAt : Int
  lastActivity : Int
  deriving DecidableEq, Repr

/-- The parsed `chatRooms` object: room code to room, as a key/value list of
its own properties.  The codes the class looks up are upper-cased text, which
never names a member of `Object.prototype`; inherited members are not
modelled.  The order of the list is the order of creation, not the engine's
enumeration order (which lists array-index names first); neither the class
nor a statement below depends on the order. -/
abbrev RoomTable := List (String × Room)

/-- JavaScript `rooms[code]`. -/
def tableGet : RoomTable → String → Option Room
  | [], _ => none
  | (k, r) :: rest, code => if k = code then some r else tableGet rest code

/-- JavaScript `rooms[code] = room`. -/
def tableSet : RoomTable → String → Room → RoomTable
  | [], code, room => [(code, room)]
  | (k, r) :: rest, code, room =>
    if k = code then (code, room) :: rest else (k, r) :: tableSet rest code room

/-- JavaScript `delete rooms[code]`. -/
def tableDelete (rooms : RoomTable) (code : String) : RoomTable :=
  rooms.filter (fun e => decide (e.1 ≠ code))

/-- A table is an object: no key occurs twice. -/
def UniqueKeys (rooms : RoomTable) : Prop := (rooms.map Prod.fst).Nodup

/-- Every entry is stored under its own code, as `saveRoom` writes it. -/
def KeyedByCode (rooms : RoomTable) : Prop := ∀ e ∈ rooms, e.2.code = e.1

/-! ## Page state -/

/-- The fields of the `ChatApp` object that are not DOM elements. -/
structure ChatApp where
  username : String
  currentRoom : Option String
  isConnected : Bool
  roomTimeoutId : Option Nat
  emptyRoomTimeoutId : Option Nat
  timerInterval : Option Nat
  deriving DecidableEq, Repr

/-- What a pending timer of the page will run. -/
inductive TimerKind where
  | roomTimeout
  | deleteAfterNotice
  | emptyRoom (roomCode : String)
  | timerTick
  | roomCleanup
  | errorToast
  deriving DecidableEq, Repr

/-- A pending `setTimeout`/`setInterval` handle: its id, the instant it is
first due at, and its callback. -/
structure Timer where
  id : Nat
  due : Int
  kind : TimerKind
  deriving DecidableEq, Repr

structure World where
  app : ChatApp
  chatRooms : RoomTable
  timers : List Timer
  lastTimerId : Nat
  errors : List String
  deriving DecidableEq, Repr

/-- Truthiness of a string-or-null field such as `this.currentRoom`. -/
def truthyStr : Option String → Bool
  | none => false
  | some s => s != ""

/-- Truthiness of a timer-id-or-null field such as `this.roomTimeoutId`. -/
def truthyId : Option Nat → Bool
  | none => false
  | some n => n != 0

/-- Host `setTimeout`/`setInterval`: a fresh positive handle, pending. -/
def setTimer (delay : Int) (kind : TimerKind) (now : Int) (w : World) : Nat × World :=
  let id := w.lastTimerId + 1
  (id, { w with timers := w.timers ++ [⟨id, now + delay, kind⟩], lastTimerId := id })

/-- Host `clearTimeout`/`clearInterval`. -/
def clearTimer (id : Nat) (w : World) : World :=
  { w with timers := w.timers.filter (fun t => t.id != id) }

/-- Conditional clear `if (field) clear(field)` as written in the source. -/
def clearIfSet (field : Option Nat) (w : World) : World :=
  match field with
  | some id => if truthyId (some id) then clearTimer id w else w
  | none => w

/-- Property key a value is converted to in `rooms[this.currentRoom]`. -/
def propertyKey : Option String → String
  | some s => s
  | none => "null"

/-! ## Room repository -/

/-- Method `getRooms()` on a store whose `chatRooms` item holds a table. -/
def getRooms (w : World) : RoomTable := w.chatRooms

/-- Method `saveRoom(room)`. -/
def saveRoom (room : Room) (w : World) : World :=
  let rooms := getRooms w
  { w with chatRooms := tableSet rooms room.code room }

/-- Method `deleteRoom(roomCode)`. -/
def deleteRoom (roomCode : Option String) (w : World) : World :=
  let rooms := getRooms w
  { w with chatRooms := tableDelete rooms (propertyKey roomCode) }

/-- The statements `push(message)` and the `splice` that keeps the last 50. -/
def pushCapped (messages : List Message) (message : Message) : List Message :=
  let pushed := messages ++ [message]
  if pushed.length > 50 then pushed.drop (pushed.length - 50) else pushed

/-- Method `saveMessage(message)`. -/
def saveMessage (message : Message) (now : Int) (w : World) : World :=
  if !truthyStr w.app.currentRoom then w
  else
    let rooms := getRooms w
    match tableGet rooms (propertyKey w.app.currentRoom) with
    | some room =>
      saveRoom { room with messages := pushCapped room.messages message, lastActivity := now } w
    | none => w

/-- Method `encryptMessage(message)`. -/
def encryptMessage (h : Host) (message : String) : Except JsError String :=
  match h.btoa message with
  | some encoded => Except.ok encoded
  | none => Except.error JsError.invalidCharacter

/-- The object literal built by `addSystemMessage`, `content` being the value
of its `content` field. -/
def systemMessage (h : Host) (content : String) (now : Int) : Message :=
  { id := now
    username := none
    content := content
    timestamp := h.toLocaleTimeString now
    type := MessageType.system }

/-- Method `addSystemMessage(content, encrypted)`. -/
def addSystemMessage (h : Host) (content : String) (encrypted : Bool) (now : Int)
    (w : World) : Except JsError World :=
  if encrypted then
    match encryptMessage h content with
    | Except.ok encoded => Except.ok (saveMessage (systemMessage h encoded now) now w)
    | Except.error e => Except.error e
  else Except.ok (saveMessage (systemMessage h content now) now w)

/-- The call `this.addSystemMessage(content, false)`, the only form in which
the class calls the method: nothing is encoded and nothing can raise. -/
def addSystemMessagePlain (h : Host) (content : String) (now : Int) (w : World) : World :=
  saveMessage (systemMessage h content now) now w

/-! ## Timers of the session -/

/-- Method `startRoomTimer()`. -/
def startRoomTimer (now : Int) (w : World) : World :=
  let w1 := clearIfSet w.app.roomTimeoutId w
  let w2 := clearIfSet w1.app.timerInterval w1
  let t := setTimer 3600000 TimerKind.roomTimeout now w2
  let w3 := { t.2 with app := { t.2.app with roomTimeoutId := some t.1 } }
  let i := setTimer 60000 TimerKind.timerTick now w3
  { i.2 with app := { i.2.app with timerInterval := some i.1 } }

/-- Method `updateRoomActivity()`. -/
def updateRoomActivity (now : Int) (w : World) : World :=
  if !truthyStr w.app.currentRoom then w
  else
    let rooms := getRooms w
    let w1 :=
      match tableGet rooms (propertyKey w.app.currentRoom) with
      | some room => saveRoom { room with lastActivity := now } w
      | none => w
    startRoomTimer now w1

/-- Method `startEmptyRoomTimer(roomCode)`: arms the five-minute timer. -/
def startEmptyRoomTimer (roomCode : Option String) (now : Int) (w : World) : World :=
  (setTimer 300000 (TimerKind.emptyRoom (propertyKey roomCode)) now w).2

/-- The block `if (this.roomTimeoutId) { clearTimeout(this.roomTimeoutId);
this.roomTimeoutId = null; }`. -/
def dropRoomTimeout (w : World) : World :=
  if truthyId w.app.roomTimeoutId then
    let c := clearIfSet w.app.roomTimeoutId w
    { c with app := { c.app with roomTimeoutId := none } }
  else w

/-- The block `if (this.timerInterval) { clearInterval(this.timerInterval);
this.timerInterval = null; }`. -/
def dropTimerInterval (w : World) : World :=
  if truthyId w.app.timerInterval then
    let c := clearIfSet w.app.timerInterval w
    { c with app := { c.app with timerInterval := none } }
  else w

/-- The block `if (this.emptyRoomTimeoutId) { clearTimeout(this.emptyRoomTimeoutId);
this.emptyRoomTimeoutId = null; }`. -/
def dropEmptyRoomTimeout (w : World) : World :=
  if truthyId w.app.emptyRoomTimeoutId then
    let c := clearIfSet w.app.emptyRoomTimeoutId w
    { c with app := { c.app with emptyRoomTimeoutId := none } }
  else w

/-- The assignments `this.isConnected = false; this.currentRoom = null;
this.username = '';`. -/
def clearSessionFields (w : World) : World :=
  { w with app := { w.app with isConnected := false, currentRoom := none, username := "" } }

/-- Method `resetToRoomSetup()`. -/
def resetToRoomSetup (w : World) : World :=
  let w0 := clearSessionFields w
  dropEmptyRoomTimeout (dropTimerInterval (dropRoomTimeout w0))

/-- Method `showError(message)`: the toast and the timer that removes it. -/
def showError (message : String) (now : Int) (w : World) : World :=
  (setTimer 3000 TimerKind.errorToast now { w with errors := w.errors ++ [message] }).2

/-! ## Room codes -/

/-- A number `num / 2 ^ exp` with `num < 2 ^ exp`, a value of `Math.random()`. -/
structure Dyadic01 where
  num : Nat
  exp : Nat
  deriving DecidableEq, Repr

/-- Digit of `Number.prototype.toString(36)`: `0-9` then `a-z`. -/
def digit36 (d : Nat) : Char :=
  if d < 10 then Char.ofNat (48 + d) else Char.ofNat (87 + d)

/-- Base-36 digits of the fraction `r / 2 ^ exp`, most significant first,
until the remainder is zero. -/
def fracDigits36 : Nat → Nat → Nat → List Char
  | 0, _, _ => []
  | fuel + 1, r, exp =>
    if r = 0 then []
    else digit36 (r * 36 / 2 ^ exp) :: fracDigits36 fuel (r * 36 % 2 ^ exp) exp

/-- JavaScript `x.toString(36)` for a double `0 ≤ x < 1` with at most 20 binary
places: the text `0` for zero, otherwise `0.` followed by the base-36
expansion of `x`, which ends within 10 digits (each digit removes two binary
places).  An engine prints the shortest digit string that identifies the
double; a value with at most 20 binary places differs from every shorter
base-36 fraction by more than half a unit in its last place, so the string
printed is the expansion itself.  On a double with more binary places the
digits are the engine's choice and the result is `none`. -/
def toString36 (x : Dyadic01) : Option String :=
  if 20 < x.exp then none
  else if x.num = 0 then some "0"
  else some (String.mk ([Char.ofNat 48, Char.ofNat 46] ++ fracDigits36 x.exp x.num x.exp))

/-- JavaScript `s.substring(start, stop)` for `start ≤ stop` on a string of
single-unit characters. -/
def substring (s : String) (start stop : Nat) : String :=
  String.mk ((s.data.drop start).take (stop - start))

/-- Method `generateRoomCode()`, `randomText` being the value of
`Math.random().toString(36)`. -/
def generateRoomCode (h : Host) (randomText : String) : String :=
  h.toUpperCase (substring randomText 2 8)

/-! ## Admission -/

/-- Method `joinRoomWithCode(username, roomCode)`. -/
def joinRoomWithCode (h : Host) (username roomCode : String) (now : Int) (w : World) : World :=
  let w1 := { w with app := { w.app with
    username := username, currentRoom := some roomCode, isConnected := true } }
  let w2 := addSystemMessagePlain h (username ++ " joined the room") now w1
  let w3 := startRoomTimer now w2
  dropEmptyRoomTimeout w3

/-- Method `createRoom()`; `usernameInput` is the value of the username field
and `randomText` the value of `Math.random().toString(36)`. -/
def createRoom (h : Host) (usernameInput : String) (randomText : String) (now : Int)
    (w : World) : World :=
  let username := jsTrim usernameInput
  if username = "" then showError "Please enter a username" now w
  else if jsLength username < 2 then
    showError "Username must be at least 2 characters long" now w
  else
    let roomCode := generateRoomCode h randomText
    let room : Room :=
      { code := roomCode, messages := [], users := [username], createdAt := now,
        lastActivity := now }
    let w1 := saveRoom room w
    joinRoomWithCode h username roomCode now w1

/-- Method `joinRoom()`; the two inputs are the values of the two fields. -/
def joinRoom (h : Host) (usernameInput roomCodeInput : String) (now : Int) (w : World) : World :=
  let username := jsTrim usernameInput
  let roomCode := h.toUpperCase (jsTrim roomCodeInput)
  if username = "" then showError "Please enter a username" now w
  else if jsLength username < 2 then
    showError "Username must be at least 2 characters long" now w
  else if roomCode = "" then showError "Please enter a room code" now w
  else
    let rooms := getRooms w
    match tableGet rooms roomCode with
    | none => showError "Room not found. Please check the room code." now w
    | some room =>
      if room.users.contains username then
        showError "Username is already taken in this room" now w
      else
        let users := if !room.users.contains username then room.users ++ [username] else room.users
        let w1 := saveRoom { room with users := users, lastActivity := now } w
        joinRoomWithCode h username roomCode now w1

/-! ## Leaving -/

/-- Method `removeUserFromRoom()`. -/
def removeUserFromRoom (now : Int) (w : World) : World :=
  let rooms := getRooms w
  match tableGet rooms (propertyKey w.app.currentRoom) with
  | some room =>
    let users := room.users.filter (fun user => user != w.app.username)
    let w1 := if users.length = 0 then startEmptyRoomTimer w.app.currentRoom now w else w
    saveRoom { room with users := users, lastActivity := now } w1
  | none => w

/-- Method `handleUserLeaving()`. -/
def handleUserLeaving (h : Host) (now : Int) (w : World) : World :=
  let w1 := addSystemMessagePlain h (w.app.username ++ " left the room") now w
  removeUserFromRoom now w1

/-- Method `leaveRoom()`. -/
def leaveRoom (h : Host) (now : Int) (w : World) : World :=
  let w1 := if w.app.isConnected && truthyStr w.app.currentRoom then handleUserLeaving h now w else w
  resetToRoomSetup w1

/-- The `beforeunload` listener of `bindEvents`. -/
def onBeforeUnload (h : Host) (now : Int) (w : World) : World :=
  if w.app.isConnected && truthyStr w.app.currentRoom then handleUserLeaving h now w else w

/-- The `visibilitychange` listener of `bindEvents`; `hidden` is `document.hidden`. -/
def onVisibilityChange (h : Host) (hidden : Bool) (now : Int) (w : World) : World :=
  if hidden && w.app.isConnected && truthyStr w.app.currentRoom then handleUserLeaving h now w
  else w

/-! ## Sending -/

/-- The object literal built by `sendMessage()`, `encryptedContent` being the
value `encryptMessage` returned. -/
def userMessage (h : Host) (username encryptedContent : String) (now : Int) : Message :=
  { id := now
    username := some username
    content := encryptedContent
    timestamp := h.toLocaleTimeString now
    type := MessageType.user }

/-- Method `sendMessage()`; `messageInput` is the value of the message field.
An exception of `encryptMessage` leaves the handler before anything is
written. -/
def sendMessage (h : Host) (messageInput : String) (now : Int) (w : World) :
    Except JsError World :=
  let content := jsTrim messageInput
  if content = "" || !w.app.isConnected || !truthyStr w.app.currentRoom then Except.ok w
  else
    match encryptMessage h content with
    | Except.ok encryptedContent =>
      let message := userMessage h w.app.username encryptedContent now
      let w1 := saveMessage message now w
      Except.ok (updateRoomActivity now w1)
    | Except.error e => Except.error e

/-- Consecutive calls of `sendMessage()`, each with its input and instant, up
to the first one that raises. -/
def sendAll (h : Host) : List (String × Int) → World → Except JsError World
  | [], w => Except.ok w
  | (text, now) :: rest, w =>
    match sendMessage h text now w with
    | Except.ok w1 => sendAll h rest w1
    | Except.error e => Except.error e

/-! ## Timer callbacks -/

/-- Callback armed by `startEmptyRoomTimer(roomCode)`. -/
def onEmptyRoomTimer (roomCode : String) (w : World) : World :=
  let rooms := getRooms w
  match tableGet rooms roomCode with
  | some room =>
    if room.users.length = 0 then { w with chatRooms := tableDelete rooms roomCode } else w
  | none => w

/-- Inner callback of the inactivity timer, run two seconds after the notice. -/
def onDeleteAfterNotice (w : World) : World :=
  resetToRoomSetup (deleteRoom w.app.currentRoom w)

/-- Callback of the one-hour timer armed by `startRoomTimer()`. -/
def onRoomTimeout (h : Host) (now : Int) (w : World) : World :=
  if truthyStr w.app.currentRoom then
    let w1 := addSystemMessagePlain h "Room deleted due to inactivity" now w
    (setTimer 2000 TimerKind.deleteAfterNotice now w1).2
  else w

/-- One iteration of the `for ... of Object.entries(rooms)` loop of the sweep. -/
def cleanupEntry (now : Int) (rooms : RoomTable) (entry : String × Room) : RoomTable :=
  if now - entry.2.lastActivity > 3600000 then tableDelete rooms entry.1
  else if entry.2.users.length = 0 ∧ now - entry.2.lastActivity > 300000 then
    tableDelete rooms entry.1
  else rooms

/-- Callback of the interval armed by `startRoomCleanup()`. -/
def onRoomCleanup (now : Int) (w : World) : World :=
  let rooms := getRooms w
  { w with chatRooms := rooms.foldl (cleanupEntry now) rooms }

/-- Method `startRoomCleanup()`: arms the five-minute interval. -/
def startRoomCleanup (now : Int) (w : World) : World :=
  (setTimer 300000 TimerKind.roomCleanup now w).2

/-- The state `new ChatApp()` leaves, on a page whose store holds `rooms`. -/
def newChatApp (rooms : RoomTable) (now : Int) : World :=
  startRoomCleanup now
    { app := { username := "", currentRoom := none, isConnected := false,
               roomTimeoutId := none, emptyRoomTimeoutId := none, timerInterval := none }
      chatRooms := rooms
      timers := []
      lastTimerId := 0
      errors := [] }

/-- The `storage` listener of `bindEvents`, change detection: whether it calls
`loadMessages()`.  `key` is `e.key` and `rendered` the number of children of
the messages container. -/
def onStorage (key : Option String) (rendered : Nat) (w : World) : Bool :=
  if key = some "chatRooms" && truthyStr w.app.currentRoom && w.app.isConnected then
    let rooms := getRooms w
    match tableGet rooms (propertyKey w.app.currentRoom) with
    | some room => room.messages.length != rendered
    | none => false
  else false

/-! ## Events of the page -/

/-- A pending timer fires: a timeout leaves the pending set and runs its
callback; an interval runs its callback and stays pending. -/
def fireTimer (h : Host) (t : Timer) (now : Int) (w : World) : World :=
  match t.kind with
  | TimerKind.roomTimeout => onRoomTimeout h now (clearTimer t.id w)
  | TimerKind.deleteAfterNotice => onDeleteAfterNotice (clearTimer t.id w)
  | TimerKind.emptyRoom roomCode => onEmptyRoomTimer roomCode (clearTimer t.id w)
  | TimerKind.timerTick => w
  | TimerKind.roomCleanup => onRoomCleanup now w
  | TimerKind.errorToast => clearTimer t.id w

/-- One event handled by the page: a user action, an external signal, a timer
firing, or another page rewriting the shared `chatRooms` item.  The schedule
is not constrained: any pending timer may be the next to fire. -/
inductive Step (h : Host) : World → World → Prop where
  | createRoom (usernameInput : String) (randomText : String) (now : Int) (w : World) :
      Step h w (createRoom h usernameInput randomText now w)
  | joinRoom (usernameInput roomCodeInput : String) (now : Int) (w : World) :
      Step h w (joinRoom h usernameInput roomCodeInput now w)
  | leaveRoom (now : Int) (w : World) : Step h w (leaveRoom h now w)
  | sendMessage (messageInput : String) (now : Int) (w w1 : World)
      (hsent : sendMessage h messageInput now w = Except.ok w1) : Step h w w1
  | beforeUnload (now : Int) (w : World) : Step h w (onBeforeUnload h now w)
  | visibilityChange (hidden : Bool) (now : Int) (w : World) :
      Step h w (onVisibilityChange h hidden now w)
  | fire (t : Timer) (now : Int) (w : World) (hpending : t ∈ w.timers) :
      Step h w (fireTimer h t now w)
  | storage (rooms : RoomTable) (w : World) : Step h w { w with chatRooms := rooms }

/-- States of a page from `new ChatApp()` onwards. -/
inductive Reachable (h : Host) : World → Prop where
  | init (rooms : RoomTable) (now : Int) : Reachable h (newChatApp rooms now)
  | step (w w1 : World) (hw : Reachable h w) (hstep : Step h w w1) : Reachable h w1

/-! ## The store as text

`getRooms` on the raw item: `localStorage.getItem` returns `null` or a string,
and `JSON.parse` either returns a value or throws `SyntaxError`. -/

/-- A parsed JSON text; a number keeps its literal. -/
inductive Json where
  | null
  | bool (b : Bool)
  | num (literal : String)
  | str (s : String)
  | arr (items : List Json)
  | obj (members : List (String × Json))

inductive Token where
  | lbrace
  | rbrace
  | lbracket
  | rbracket
  | colon
  | comma
  | str (s : String)
  | num (literal : String)
  | lit (v : Json)

def hexVal (c : Char) : Option Nat :=
  let n := c.toNat
  if 48 ≤ n ∧ n ≤ 57 then some (n - 48)
  else if 97 ≤ n ∧ n ≤ 102 then some (n - 87)
  else if 65 ≤ n ∧ n ≤ 70 then some (n - 55)
  else none

/-- UTF-16 code units of a character. -/
def toUnits (c : Char) : List Nat :=
  if c.toNat < 0x10000 then [c.toNat]
  else [0xD800 + (c.toNat - 0x10000) / 0x400, 0xDC00 + (c.toNat - 0x10000) % 0x400]

/-- The characters of a sequence of UTF-16 code units, `pending` being a high
surrogate read just before: a high surrogate followed by a low one is one
character; a lone surrogate, which a Lean string cannot hold, is written
U+FFFD. -/
def fromUnitsFrom : Option Nat → List Nat → List Char
  | none, [] => []
  | some _, [] => [Char.ofNat 0xFFFD]
  | none, u :: rest =>
    if 0xD800 ≤ u ∧ u ≤ 0xDBFF then fromUnitsFrom (some u) rest
    else if 0xDC00 ≤ u ∧ u ≤ 0xDFFF then Char.ofNat 0xFFFD :: fromUnitsFrom none rest
    else Char.ofNat u :: fromUnitsFrom none rest
  | some hi, u :: rest =>
    if 0xDC00 ≤ u ∧ u ≤ 0xDFFF then
      Char.ofNat (0x10000 + (hi - 0xD800) * 0x400 + (u - 0xDC00)) :: fromUnitsFrom none rest
    else if 0xD800 ≤ u ∧ u ≤ 0xDBFF then Char.ofNat 0xFFFD :: fromUnitsFrom (some u) rest
    else Char.ofNat 0xFFFD :: Char.ofNat u :: fromUnitsFrom none rest

/-- The characters of a sequence of UTF-16 code units. -/
def fromUnits (units : List Nat) : List Char := fromUnitsFrom none units

/-- The rest of a JSON string after its opening quote: the string it denotes
and the input after the closing quote; `units` holds the code units read so
far, last first. -/
def lexString : List Char → List Nat → Option (String × List Char)
  | [], _ => none
  | c :: rest, units =>
    if c.toNat = 34 then some (String.mk (fromUnits units.reverse), rest)
    else if c.toNat = 92 then
      match rest with
      | e :: rest1 =>
        if e.toNat = 34 ∨ e.toNat = 92 ∨ e.toNat = 47 then lexString rest1 (e.toNat :: units)
        else if e.toNat = 98 then lexString rest1 (8 :: units)
        else if e.toNat = 102 then lexString rest1 (12 :: units)
        else if e.toNat = 110 then lexString rest1 (10 :: units)
        else if e.toNat = 114 then lexString rest1 (13 :: units)
        else if e.toNat = 116 then lexString rest1 (9 :: units)
        else if e.toNat = 117 then
          match rest1 with
          | a :: b :: c1 :: d :: rest2 =>
            match hexVal a, hexVal b, hexVal c1, hexVal d with
            | some x, some y, some z, some u =>
              lexString rest2 ((x * 4096 + y * 256 + z * 16 + u) :: units)
            | _, _, _, _ => none
          | _ => none
        else none
      | [] => none
    else if c.toNat < 32 then none
    else lexString rest ((toUnits c).reverse ++ units)

def isNumberChar (c : Char) : Bool :=
  let n := c.toNat
  (48 ≤ n && n ≤ 57) || n == 45 || n == 43 || n == 46 || n == 101 || n == 69

/-- Automaton of the JSON number grammar; states 3, 4, 6 and 9 accept. -/
def numberStep (state : Nat) (c : Char) : Nat :=
  let n := c.toNat
  let digit := 48 ≤ n ∧ n ≤ 57
  let expo := n = 101 ∨ n = 69
  match state with
  | 1 => if n = 45 then 2 else if n = 48 then 3 else if digit then 4 else 0
  | 2 => if n = 48 then 3 else if digit then 4 else 0
  | 3 => if n = 46 then 5 else if expo then 7 else 0
  | 4 => if digit then 4 else if n = 46 then 5 else if expo then 7 else 0
  | 5 => if digit then 6 else 0
  | 6 => if digit then 6 else if expo then 7 else 0
  | 7 => if n = 43 ∨ n = 45 then 8 else if digit then 9 else 0
  | 8 => if digit then 9 else 0
  | 9 => if digit then 9 else 0
  | _ => 0

def isNumberLiteral (cs : List Char) : Bool :=
  let s := cs.foldl numberStep 1
  s == 3 || s == 4 || s == 6 || s == 9

/-- Tokens of a JSON text. -/
def lex : Nat → List Char → Except JsError (List Token)
  | 0, _ => Except.error JsError.syntaxError
  | _ + 1, [] => Except.ok []
  | fuel + 1, c :: rest =>
    let n := c.toNat
    let more (t : Token) (input : List Char) : Except JsError (List Token) :=
      match lex fuel input with
      | Except.ok ts => Except.ok (t :: ts)
      | Except.error e => Except.error e
    if n = 32 ∨ n = 9 ∨ n = 10 ∨ n = 13 then lex fuel rest
    else if n = 123 then more Token.lbrace rest
    else if n = 125 then more Token.rbrace rest
    else if n = 91 then more Token.lbracket rest
    else if n = 93 then more Token.rbracket rest
    else if n = 58 then more Token.colon rest
    else if n = 44 then more Token.comma rest
    else if n = 34 then
      match lexString rest [] with
      | some (str, input) => more (Token.str str) input
      | none => Except.error JsError.syntaxError
    else if isNumberChar c then
      let literal := (c :: rest).takeWhile isNumberChar
      if isNumberLiteral literal then
        more (Token.num (String.mk literal)) ((c :: rest).dropWhile isNumberChar)
      else Except.error JsError.syntaxError
    else if (c :: rest).take 4 = "true".data then more (Token.lit (Json.bool true)) (rest.drop 3)
    else if (c :: rest).take 5 = "false".data then more (Token.lit (Json.bool false)) (rest.drop 4)
    else if (c :: rest).take 4 = "null".data then more (Token.lit Json.null) (rest.drop 3)
    else Except.error JsError.syntaxError

/-- The property `name` of an object being parsed is created, or overwritten:
a repeated name keeps its place and takes the later value. -/
def setMember : List (String × Json) → String → Json → List (String × Json)
  | [], name, v => [(name, v)]
  | (k, x) :: rest, name, v =>
    if k = name then (k, v) :: rest else (k, x) :: setMember rest name v

/-- An enclosing array or object whose next element is being parsed. -/
inductive Frame where
  | arr (items : List Json)
  | obj (members : List (String × Json)) (key : String)

/-- Where the parser stands between two tokens. -/
inductive ParseState where
  | value (stack : List Frame)
  | arrFirst (stack : List Frame)
  | objFirst (stack : List Frame)
  | objKey (members : List (String × Json)) (stack : List Frame)
  | objColon (members : List (String × Json)) (key : String) (stack : List Frame)
  | after (v : Json) (stack : List Frame)

/-- A token in a position where a value starts. -/
def startValue (stack : List Frame) : Token → Except JsError ParseState
  | Token.lbrace => Except.ok (ParseState.objFirst stack)
  | Token.lbracket => Except.ok (ParseState.arrFirst stack)
  | Token.str s => Except.ok (ParseState.after (Json.str s) stack)
  | Token.num l => Except.ok (ParseState.after (Json.num l) stack)
  | Token.lit v => Except.ok (ParseState.after v stack)
  | _ => Except.error JsError.syntaxError

def parseStep : ParseState → Token → Except JsError ParseState
  | ParseState.value stack, t => startValue stack t
  | ParseState.arrFirst stack, Token.rbracket => Except.ok (ParseState.after (Json.arr []) stack)
  | ParseState.arrFirst stack, t => startValue (Frame.arr [] :: stack) t
  | ParseState.objFirst stack, Token.rbrace => Except.ok (ParseState.after (Json.obj []) stack)
  | ParseState.objFirst stack, Token.str k => Except.ok (ParseState.objColon [] k stack)
  | ParseState.objFirst _, _ => Except.error JsError.syntaxError
  | ParseState.objKey members stack, Token.str k =>
    Except.ok (ParseState.objColon members k stack)
  | ParseState.objKey _ _, _ => Except.error JsError.syntaxError
  | ParseState.objColon members k stack, Token.colon =>
    Except.ok (ParseState.value (Frame.obj members k :: stack))
  | ParseState.objColon _ _ _, _ => Except.error JsError.syntaxError
  | ParseState.after v (Frame.arr items :: stack), Token.comma =>
    Except.ok (ParseState.value (Frame.arr (items ++ [v]) :: stack))
  | ParseState.after v (Frame.arr items :: stack), Token.rbracket =>
    Except.ok (ParseState.after (Json.arr (items ++ [v])) stack)
  | ParseState.after v (Frame.obj members k :: stack), Token.comma =>
    Except.ok (ParseState.objKey (setMember members k v) stack)
  | ParseState.after v (Frame.obj members k :: stack), Token.rbrace =>
    Except.ok (ParseState.after (Json.obj (setMember members k v)) stack)
  | ParseState.after _ _, _ => Except.error JsError.syntaxError

def parseTokens : ParseState → List Token → Except JsError Json
  | ParseState.after v [], [] => Except.ok v
  | _, [] => Except.error JsError.syntaxError
  | st, t :: ts =>
    match parseStep st t with
    | Except.ok st1 => parseTokens st1 ts
    | Except.error e => Except.error e

/-- Host `JSON.parse(text)`: the value of a text of the JSON grammar, the
properties of an object in the order their names first occur, each with the
value given last; `SyntaxError` on any other text. -/
def jsonParse (text : String) : Except JsError Json :=
  match lex (text.data.length + 1) text.data with
  | Except.ok tokens => parseTokens (ParseState.value []) tokens
  | Except.error e => Except.error e

namespace Stored

/-- Method `getRooms()` on the raw item: `stored` is what
`localStorage.getItem` returns for `chatRooms`, `none` for `null`. -/
def getRooms (stored : Option String) : Except JsError Json :=
  let text :=
    match stored with
    | some s => if s = "" then "\x7b\x7d" else s
    | none => "\x7b\x7d"
  jsonParse text

end Stored

/-! ### Methods on the raw item

The value `getRooms` parsed is read as a table of rooms; a method that starts
with `const rooms = this.getRooms();` raises what `getRooms` raises and
otherwise runs on the table read.  Later reads in the same handler follow the
handler's own `setItem` of a `JSON.stringify` text, which parses back to the
table written. -/

/-- Own property `name` of a parsed object. -/
def jsonField (members : List (String × Json)) (name : String) : Option Json :=
  (members.find? (fun e => e.1 == name)).map Prod.snd

/-- An integer written without fraction or exponent, as `JSON.stringify`
writes a timestamp. -/
def jsonInt : Json → Option Int
  | Json.num literal => literal.toInt?
  | _ => none

def jsonString : Json → Option String
  | Json.str s => some s
  | _ => none

def jsonStrings : Json → Option (List String)
  | Json.arr items => items.mapM jsonString
  | _ => none

def jsonMessageType : Json → Option MessageType
  | Json.str s => if s = "user" then some MessageType.user
    else if s = "system" then some MessageType.system else none
  | _ => none

/-- An optional string property: absent, or a string. -/
def jsonOptionalString : Option Json → Option (Option String)
  | none => some none
  | some (Json.str s) => some (some s)
  | some _ => none

/-- A message record as `saveMessage` stores it. -/
def jsonMessage : Json → Option Message
  | Json.obj members => do
    let id ← (jsonField members "id").bind jsonInt
    let username ← jsonOptionalString (jsonField members "username")
    let content ← (jsonField members "content").bind jsonString
    let timestamp ← (jsonField members "timestamp").bind jsonString
    let type ← (jsonField members "type").bind jsonMessageType
    pure { id := id, username := username, content := content, timestamp := timestamp,
           type := type }
  | _ => none

def jsonMessages : Json → Option (List Message)
  | Json.arr items => items.mapM jsonMessage
  | _ => none

/-- A room record as `saveRoom` stores it. -/
def jsonRoom : Json → Option Room
  | Json.obj members => do
    let code ← (jsonField members "code").bind jsonString
    let messages ← (jsonField members "messages").bind jsonMessages
    let users ← (jsonField members "users").bind jsonStrings
    let createdAt ← (jsonField members "createdAt").bind jsonInt
    let lastActivity ← (jsonField members "lastActivity").bind jsonInt
    pure { code := code, messages := messages, users := users, createdAt := createdAt,
           lastActivity := lastActivity }
  | _ => none

/-- The parsed `chatRooms` value as a table of rooms; `none` when it is not an
object of room records. -/
def jsonTable : Json → Option RoomTable
  | Json.obj members => members.mapM (fun e => (jsonRoom e.2).map (fun room => (e.1, room)))
  | _ => none

/-- A method that starts with `const rooms = this.getRooms();`, on the raw
item: it ends with the exception `getRooms` raises, nothing in the class
catching it; otherwise it runs on the table read.  The result is `none` when
the value parsed is not a table of rooms: what the method does with such a
value is not embedded. -/
def Stored.readingRooms {α : Type} (stored : Option String) (method : RoomTable → α) :
    Except JsError (Option α) :=
  match Stored.getRooms stored with
  | Except.ok rooms => Except.ok ((jsonTable rooms).map method)
  | Except.error e => Except.error e

/-- Method `saveRoom(room)` on the raw item. -/
def Stored.saveRoom (stored : Option String) (room : Room) (w : World) :
    Except JsError (Option World) :=
  Stored.readingRooms stored (fun rooms => ChatZ.saveRoom room { w with chatRooms := rooms })

/-- Callback of the cleanup interval on the raw item. -/
def Stored.onRoomCleanup (stored : Option String) (now : Int) (w : World) :
    Except JsError (Option World) :=
  Stored.readingRooms stored (fun rooms => ChatZ.onRoomCleanup now { w with chatRooms := rooms })

/-- Method `joinRoom()` on the raw item: the store is read once the three
input checks have passed. -/
def Stored.joinRoom (h : Host) (stored : Option String) (usernameInput roomCodeInput : String)
    (now : Int) (w : World) : Except JsError (Option World) :=
  let username := jsTrim usernameInput
  let roomCode := h.toUpperCase (jsTrim roomCodeInput)
  if username = "" then Except.ok (some (showError "Please enter a username" now w))
  else if jsLength username < 2 then
    Except.ok (some (showError "Username must be at least 2 characters long" now w))
  else if roomCode = "" then Except.ok (some (showError "Please enter a room code" now w))
  else
    Stored.readingRooms stored
      (fun rooms => ChatZ.joinRoom h usernameInput roomCodeInput now { w with chatRooms := rooms })

/-- The `storage` listener on the raw item: the store is read when the event
is for `chatRooms` and the session is connected. -/
def Stored.onStorage (stored : Option String) (key : Option String) (rendered : Nat)
    (w : World) : Except JsError (Option Bool) :=
  if key = some "chatRooms" && truthyStr w.app.currentRoom && w.app.isConnected then
    Stored.readingRooms stored (fun rooms => ChatZ.onStorage key rendered { w with chatRooms := rooms })
  else Except.ok (some false)

/-! ## Reference values used to evaluate the definitions -/

/-- Character of the base64 alphabet for a six-bit value. -/
def base64Char (n : Nat) : Char :=
  if n < 26 then Char.ofNat (65 + n)
  else if n < 52 then Char.ofNat (71 + n)
  else if n < 62 then Char.ofNat (n - 4)
  else if n = 62 then Char.ofNat 43
  else Char.ofNat 47

/-- Base64 text of a list of bytes. -/
def base64 : List Nat → List Char
  | [] => []
  | [a] => [base64Char (a / 4), base64Char (a % 4 * 16), Char.ofNat 61, Char.ofNat 61]
  | [a, b] =>
    [base64Char (a / 4), base64Char (a % 4 * 16 + b / 16), base64Char (b % 16 * 4),
      Char.ofNat 61]
  | a :: b :: c :: rest =>
    [base64Char (a / 4), base64Char (a % 4 * 16 + b / 16), base64Char (b % 16 * 4 + c / 64),
      base64Char (c % 64)] ++ base64 rest

/-- A host with the browser's `btoa` (base64 of the character codes, raising on
a code above 255), with `toUpperCase` as the browser has it on ASCII text
(`a-z` to `A-Z`), and with the time of day rendered as the number of the
instant. -/
def asciiHost : Host :=
  { toUpperCase := fun s => String.mk (s.data.map Char.toUpper)
    btoa := fun s =>
      if s.data.all (fun c => decide (c.toNat < 256)) then
        some (String.mk (base64 (s.data.map Char.toNat)))
      else none
    toLocaleTimeString := fun t => toString t }

/-- The last `n` elements of a list, in order. -/
def lastN {α : Type} (n : Nat) (l : List α) : List α := l.drop (l.length - n)

/-- The session test `this.isConnected && this.currentRoom` holds with
`this.currentRoom` being `cur`. -/
def Connected (w : World) (cur : String) : Prop :=
  w.app.isConnected = true ∧ w.app.currentRoom = some cur ∧ cur ≠ ""

/-- The table of the page holds `room` under its own code `cur`. -/
def RoomAt (w : World) (cur : String) (room : Room) : Prop :=
  tableGet w.chatRooms cur = some room ∧ room.code = cur

/-- The record `sendMessage()` stores for `room` when `encryptMessage`
returned `encryptedContent`. -/
def roomAfterSend (h : Host) (room : Room) (username encryptedContent : String) (now : Int) :
    Room :=
  { room with
    messages := pushCapped room.messages (userMessage h username encryptedContent now)
    lastActivity := now }

/-- The messages `sendAll` builds for the given inputs. -/
def sentMessages (h : Host) (username : String) (sends : List (String × Int)) : List Message :=
  sends.map (fun s => userMessage h username ((h.btoa (jsTrim s.1)).getD "") s.2)

/-- A user message with the given id. -/
def sampleMessage (n : Nat) : Message :=
  { id := n, username := some "alice", content := "aGk=", timestamp := "10:00:00",
    type := MessageType.user }

/-- A room holding 51 messages, one more than the cap. -/
def room51 : Room :=
  { code := "AB12CD", messages := (List.range 51).map sampleMessage, users := ["alice"],
    createdAt := 0, lastActivity := 0 }

/-- A room with two users and two messages. -/
def sampleRoom : Room :=
  { code := "AB12CD", messages := [sampleMessage 1, sampleMessage 2], users := ["alice", "bob"],
    createdAt := 1000, lastActivity := 2000 }

/-- A page on which alice is connected to `sampleRoom`, with the cleanup
interval, her inactivity timer and her display interval pending. -/
def sampleWorld : World :=
  { app := { username := "alice", currentRoom := some "AB12CD", isConnected := true,
             roomTimeoutId := some 2, emptyRoomTimeoutId := none, timerInterval := some 3 }
    chatRooms := [("AB12CD", sampleRoom)]
    timers := [⟨1, 300000, TimerKind.roomCleanup⟩, ⟨2, 3602000, TimerKind.roomTimeout⟩,
               ⟨3, 62000, TimerKind.timerTick⟩]
    lastTimerId := 3
    errors := [] }

/-- Fifty-one sends of the text `hi`, one per millisecond from 3000 on. -/
def sends51 : List (String × Int) := (List.range 51).map (fun i => ("hi", 3000 + (i : Int)))

/-- A second page opened on the store left by a page whose `createRoom` drew
`Math.random() = 0`, which `toString(36)` prints as `0`: the store holds a
room under the empty code. -/
def emptyCodeWorld : World :=
  newChatApp (createRoom asciiHost "alice" "0" 1000 (newChatApp [] 0)).chatRooms 2000

/-- The deletion test of the periodic sweep: (a) inactive for over an hour, or
(b) without users and inactive for over five minutes. -/
def Expired (now : Int) (room : Room) : Prop :=
  now - room.lastActivity > 3600000 ∨ (room.users = [] ∧ now - room.lastActivity > 300000)

instance (now : Int) (room : Room) : Decidable (Expired now room) := by
  unfold Expired; infer_instance

/-- An occupied room last active at instant 100000. -/
def oldRoom : Room :=
  { code := "OLD001", messages := [], users := ["alice"], createdAt := 0, lastActivity := 100000 }

/-- A room without users last active at instant 3600000. -/
def idleRoom : Room :=
  { code := "EMPTY1", messages := [], users := [], createdAt := 0, lastActivity := 3600000 }

/-- An occupied room last active at instant 3600000. -/
def liveRoom : Room :=
  { code := "LIVE01", messages := [], users := ["bob"], createdAt := 0, lastActivity := 3600000 }

/-- A room without users last active at instant 3900000. -/
def freshRoom : Room :=
  { code := "FRESH1", messages := [], users := [], createdAt := 0, lastActivity := 3900000 }

/-- A page opened at instant 3700000 on a store holding the four rooms above. -/
def sweepWorld : World :=
  newChatApp
    [("OLD001", oldRoom), ("EMPTY1", idleRoom), ("LIVE01", liveRoom), ("FRESH1", freshRoom)]
    3700000

/-- Handles of the page are allocated in order: every pending handle and every
handle kept in a field of the session is at most `lastTimerId`, and every
pending inactivity timer is the one kept in `roomTimeoutId`. -/
structure TimersOk (w : World) : Prop where
  pending_le : ∀ t ∈ w.timers, t.id ≤ w.lastTimerId
  roomTimeout_le : ∀ id, w.app.roomTimeoutId = some id → id ≤ w.lastTimerId
  interval_le : ∀ id, w.app.timerInterval = some id → id ≤ w.lastTimerId
  emptyRoom_le : ∀ id, w.app.emptyRoomTimeoutId = some id → id ≤ w.lastTimerId
  tracked : ∀ t ∈ w.timers, t.kind = TimerKind.roomTimeout →
    w.app.roomTimeoutId = some t.id ∧ t.id ≠ 0

/-- Every stored room holds at most 50 messages. -/
def Capped (rooms : RoomTable) : Prop := ∀ e ∈ rooms, e.2.messages.length ≤ 50

/-- A stored table cut off in the middle of its first room. -/
def truncatedTable : String :=
  "\x7b\"AB12CD\":\x7b\"code\":\"AB12CD\",\"messages\":["

/-! ## Lemmas on the table -/

theorem tableGet_tableSet_self (rooms : RoomTable) (code : String) (room : Room) :
    tableGet (tableSet rooms code room) code = some room := by
  induction rooms with
  | nil => simp [tableSet, tableGet]
  | cons e rest ih =>
    obtain ⟨k, r⟩ := e
    by_cases hk : k = code
    · simp [tableSet, tableGet, hk]
    · simp [tableSet, tableGet, hk, ih]

theorem tableGet_tableSet_ne (rooms : RoomTable) (code other : String) (room : Room)
    (hne : other ≠ code) :
    tableGet (tableSet rooms code room) other = tableGet rooms other := by
  induction rooms with
  | nil => simp [tableSet, tableGet, Ne.symm hne]
  | cons e rest ih =>
    obtain ⟨k, r⟩ := e
    by_cases hk : k = code
    · subst hk
      simp [tableSet, tableGet, Ne.symm hne]
    · by_cases hko : k = other
      · subst hko
        simp [tableSet, tableGet, hk]
      · simp [tableSet, tableGet, hk, hko, ih]

theorem tableGet_tableDelete_self (rooms : RoomTable) (code : String) :
    tableGet (tableDelete rooms code) code = none := by
  induction rooms with
  | nil => simp [tableDelete, tableGet]
  | cons e rest ih =>
    obtain ⟨k, r⟩ := e
    by_cases hk : k = code
    · simpa [tableDelete, hk] using ih
    · simpa [tableDelete, List.filter_cons, hk, tableGet] using ih

theorem tableGet_tableDelete_ne (rooms : RoomTable) (code other : String) (hne : other ≠ code) :
    tableGet (tableDelete rooms code) other = tableGet rooms other := by
  induction rooms with
  | nil => simp [tableDelete, tableGet]
  | cons e rest ih =>
    obtain ⟨k, r⟩ := e
    by_cases hk : k = code
    · subst hk
      have : ¬ k = other := fun h => hne h.symm
      simpa [tableDelete, tableGet, this] using ih
    · by_cases hko : k = other
      · subst hko
        simp [tableDelete, List.filter_cons, hk, tableGet]
      · simpa [tableDelete, List.filter_cons, hk, tableGet, hko] using ih

theorem pushCapped_eq_lastN (messages : List Message) (message : Message) :
    pushCapped messages message = lastN 50 (messages ++ [message]) := by
  unfold pushCapped lastN
  by_cases hlen : (messages ++ [message]).length > 50
  · simp only [hlen, if_true]
  · have hz : (messages ++ [message]).length - 50 = 0 := by omega
    simp only [hlen, if_false, hz, List.drop_zero]

theorem lastN_length_le {α : Type} (n : Nat) (l : List α) : (lastN n l).length ≤ n := by
  unfold lastN
  simp only [List.length_drop]
  omega

theorem lastN_append_lastN {α : Type} (n : Nat) (a b : List α) :
    lastN n (lastN n a ++ b) = lastN n (a ++ b) := by
  unfold lastN
  by_cases ha : a.length ≤ n
  · have hz : a.length - n = 0 := by omega
    simp [hz]
  · have hlen : (List.drop (a.length - n) a).length = n := by
      simp only [List.length_drop]; omega
    simp only [List.length_append, hlen, List.drop_append_eq_append_drop, List.drop_drop,
      List.length_drop]
    have h1 : a.length - n + (n + b.length - n) = a.length + b.length - n := by omega
    have h2 : n + b.length - n - n = a.length + b.length - n - a.length := by omega
    rw [h2, h1]

theorem lastN_append_of_le {α : Type} (n : Nat) (a b : List α) (hb : n ≤ b.length) :
    lastN n (a ++ b) = lastN n b := by
  unfold lastN
  simp only [List.length_append, List.drop_append_eq_append_drop]
  have h1 : a.length ≤ a.length + b.length - n := by omega
  have h2 : a.length + b.length - n - a.length = b.length - n := by omega
  rw [List.drop_of_length_le h1, h2]
  simp

theorem mem_keys_tableSet (rooms : RoomTable) (code : String) (room : Room) (k : String) :
    k ∈ (tableSet rooms code room).map Prod.fst ↔ k = code ∨ k ∈ rooms.map Prod.fst := by
  induction rooms with
  | nil => simp [tableSet]
  | cons e rest ih =>
    obtain ⟨k1, r1⟩ := e
    by_cases hk : k1 = code
    · subst hk
      simp [tableSet]
    · simp only [tableSet, hk, if_false, List.map_cons, List.mem_cons, ih]
      tauto

/-- Assignment `rooms[code] = room` keeps the keys distinct. -/
theorem uniqueKeys_tableSet (rooms : RoomTable) (code : String) (room : Room)
    (hu : UniqueKeys rooms) : UniqueKeys (tableSet rooms code room) := by
  unfold UniqueKeys at hu ⊢
  induction rooms with
  | nil => simp [tableSet]
  | cons e rest ih =>
    obtain ⟨k1, r1⟩ := e
    simp only [List.map_cons, List.nodup_cons] at hu
    by_cases hk : k1 = code
    · subst hk
      simpa [tableSet] using hu
    · simp only [tableSet, hk, if_false, List.map_cons, List.nodup_cons]
      refine ⟨fun hc => ?_, ih hu.2⟩
      rcases (mem_keys_tableSet rest code room k1).mp hc with h1 | h1
      · exact hk h1
      · exact hu.1 h1

/-- Statement `delete rooms[code]` keeps the keys distinct. -/
theorem uniqueKeys_tableDelete (rooms : RoomTable) (code : String) (hu : UniqueKeys rooms) :
    UniqueKeys (tableDelete rooms code) := by
  unfold UniqueKeys at hu ⊢
  unfold tableDelete
  exact (List.filter_sublist rooms).map Prod.fst |>.nodup hu

/-- Writing a room under its own code keeps every entry under its own code. -/
theorem keyedByCode_tableSet (rooms : RoomTable) (room : Room) (hk : KeyedByCode rooms) :
    KeyedByCode (tableSet rooms room.code room) := by
  induction rooms with
  | nil =>
    intro e he
    simp only [tableSet, List.mem_singleton] at he
    subst he
    rfl
  | cons e rest ih =>
    obtain ⟨k1, r1⟩ := e
    have hrest : KeyedByCode rest := fun e he => hk e (List.mem_cons_of_mem _ he)
    by_cases hk1 : k1 = room.code
    · intro e he
      simp only [tableSet, hk1, if_true, List.mem_cons] at he
      rcases he with rfl | he
      · rfl
      · exact hrest e he
    · intro e he
      simp only [tableSet, hk1, if_false, List.mem_cons] at he
      rcases he with rfl | he
      · exact hk (k1, r1) (List.mem_cons_self _ _)
      · exact ih hrest e he

theorem keyedByCode_tableDelete (rooms : RoomTable) (code : String) (hk : KeyedByCode rooms) :
    KeyedByCode (tableDelete rooms code) :=
  fun e he => hk e (List.mem_of_mem_filter he)

/-! ## Lemmas on the methods -/

theorem truthyStr_some {cur : String} (hcur : cur ≠ "") : truthyStr (some cur) = true := by
  simp [truthyStr, hcur]

theorem saveRoom_get_self (room : Room) (w : World) :
    tableGet (saveRoom room w).chatRooms room.code = some room := by
  simp [saveRoom, getRooms, tableGet_tableSet_self]

theorem saveRoom_get_ne (room : Room) (w : World) (other : String) (hne : other ≠ room.code) :
    tableGet (saveRoom room w).chatRooms other = tableGet w.chatRooms other := by
  simp [saveRoom, getRooms, tableGet_tableSet_ne _ _ _ _ hne]

/-- The call `addSystemMessage(content, false)` never raises and is
`addSystemMessagePlain`. -/
theorem addSystemMessage_false (h : Host) (content : String) (now : Int) (w : World) :
    addSystemMessage h content false now w = Except.ok (addSystemMessagePlain h content now w) := by
  simp [addSystemMessage, addSystemMessagePlain]

theorem saveMessage_eq (message : Message) (now : Int) (w : World) (cur : String) (room : Room)
    (hcur : w.app.currentRoom = some cur) (hne : cur ≠ "")
    (hroom : tableGet w.chatRooms cur = some room) :
    saveMessage message now w =
      saveRoom { room with messages := pushCapped room.messages message, lastActivity := now } w := by
  simp [saveMessage, hcur, truthyStr_some hne, getRooms, propertyKey, hroom]

theorem clearIfSet_chatRooms (field : Option Nat) (w : World) :
    (clearIfSet field w).chatRooms = w.chatRooms := by
  cases field with
  | none => rfl
  | some id => simp only [clearIfSet]; split_ifs <;> rfl

theorem clearIfSet_app (field : Option Nat) (w : World) : (clearIfSet field w).app = w.app := by
  cases field with
  | none => rfl
  | some id => simp only [clearIfSet]; split_ifs <;> rfl

theorem clearIfSet_lastTimerId (field : Option Nat) (w : World) :
    (clearIfSet field w).lastTimerId = w.lastTimerId := by
  cases field with
  | none => rfl
  | some id => simp only [clearIfSet]; split_ifs <;> rfl

theorem clearIfSet_errors (field : Option Nat) (w : World) :
    (clearIfSet field w).errors = w.errors := by
  cases field with
  | none => rfl
  | some id => simp only [clearIfSet]; split_ifs <;> rfl

theorem startRoomTimer_chatRooms (now : Int) (w : World) :
    (startRoomTimer now w).chatRooms = w.chatRooms := by
  simp [startRoomTimer, setTimer, clearIfSet_chatRooms]

theorem startRoomTimer_session (now : Int) (w : World) :
    (startRoomTimer now w).app.username = w.app.username ∧
    (startRoomTimer now w).app.currentRoom = w.app.currentRoom ∧
    (startRoomTimer now w).app.isConnected = w.app.isConnected := by
  simp [startRoomTimer, setTimer, clearIfSet_app]

theorem updateRoomActivity_eq (now : Int) (w : World) (cur : String) (room : Room)
    (hcur : w.app.currentRoom = some cur) (hne : cur ≠ "")
    (hroom : tableGet w.chatRooms cur = some room) :
    updateRoomActivity now w = startRoomTimer now (saveRoom { room with lastActivity := now } w) := by
  simp [updateRoomActivity, hcur, truthyStr_some hne, getRooms, propertyKey, hroom]

/-- What `sendMessage()` computes on a connected session whose room is stored,
for a text `btoa` accepts. -/
theorem sendMessage_eq (h : Host) (text : String) (now : Int) (w : World) (cur : String)
    (room : Room) (enc : String) (hconn : Connected w cur) (hroom : RoomAt w cur room)
    (htext : jsTrim text ≠ "") (henc : h.btoa (jsTrim text) = some enc) :
    sendMessage h text now w =
      Except.ok (startRoomTimer now
        (saveRoom (roomAfterSend h room w.app.username enc now)
          (saveRoom (roomAfterSend h room w.app.username enc now) w))) := by
  obtain ⟨hc, hcur, hne⟩ := hconn
  obtain ⟨hget, hcode⟩ := hroom
  have h1 := saveMessage_eq (userMessage h w.app.username enc now) now w cur room hcur hne hget
  have hget1 : tableGet (saveMessage (userMessage h w.app.username enc now) now w).chatRooms cur
      = some (roomAfterSend h room w.app.username enc now) := by
    rw [h1]
    have := saveRoom_get_self (roomAfterSend h room w.app.username enc now) w
    simpa [roomAfterSend, hcode] using this
  have hcur1 : (saveMessage (userMessage h w.app.username enc now) now w).app.currentRoom
      = some cur := by
    rw [h1]; simpa [saveRoom] using hcur
  have h2 := updateRoomActivity_eq now _ cur _ hcur1 hne hget1
  simp only [sendMessage, htext, hc, hcur, truthyStr_some hne, encryptMessage, henc]
  simp only [Bool.not_true, Bool.or_false, decide_False, Bool.false_eq_true, if_false]
  rw [h2, h1]
  rfl

theorem sendMessage_spec (h : Host) (text : String) (now : Int) (w : World) (cur : String)
    (room : Room) (enc : String) (hconn : Connected w cur) (hroom : RoomAt w cur room)
    (htext : jsTrim text ≠ "") (henc : h.btoa (jsTrim text) = some enc) :
    ∃ w1, sendMessage h text now w = Except.ok w1 ∧ Connected w1 cur ∧
      w1.app.username = w.app.username ∧
      RoomAt w1 cur (roomAfterSend h room w.app.username enc now) := by
  refine ⟨_, sendMessage_eq h text now w cur room enc hconn hroom htext henc, ?_⟩
  obtain ⟨hc, hcur, hne⟩ := hconn
  obtain ⟨hget, hcode⟩ := hroom
  obtain ⟨hu, hcr, hic⟩ := startRoomTimer_session now
    (saveRoom (roomAfterSend h room w.app.username enc now)
      (saveRoom (roomAfterSend h room w.app.username enc now) w))
  refine ⟨⟨?_, ?_, hne⟩, ?_, ?_, hcode⟩
  · rw [hic]; simpa [saveRoom] using hc
  · rw [hcr]; simpa [saveRoom] using hcur
  · rw [hu]; simp [saveRoom]
  · rw [startRoomTimer_chatRooms]
    have := saveRoom_get_self (roomAfterSend h room w.app.username enc now)
      (saveRoom (roomAfterSend h room w.app.username enc now) w)
    simpa [roomAfterSend, hcode] using this

theorem lastN_of_length_le {α : Type} (n : Nat) (l : List α) (hl : l.length ≤ n) :
    lastN n l = l := by
  unfold lastN
  have hz : l.length - n = 0 := by omega
  rw [hz, List.drop_zero]

theorem sendAll_spec (h : Host) (sends : List (String × Int)) :
    ∀ (w : World) (cur : String) (room : Room), Connected w cur → RoomAt w cur room →
      room.messages.length ≤ 50 →
      (∀ s ∈ sends, jsTrim s.1 ≠ "" ∧ (h.btoa (jsTrim s.1)).isSome = true) →
      ∃ w1 r, sendAll h sends w = Except.ok w1 ∧ RoomAt w1 cur r ∧
        r.messages = lastN 50 (room.messages ++ sentMessages h w.app.username sends) := by
  induction sends with
  | nil =>
    intro w cur room _ hroom hcap _
    exact ⟨w, room, rfl, hroom, by simp [sentMessages, lastN_of_length_le 50 room.messages hcap]⟩
  | cons s rest ih =>
    intro w cur room hconn hroom _ htexts
    obtain ⟨text, now⟩ := s
    obtain ⟨htext, hsome⟩ := htexts (text, now) (by simp)
    obtain ⟨enc, henc⟩ := Option.isSome_iff_exists.mp hsome
    obtain ⟨w1, hsend, hconn1, huser1, hroom1⟩ :=
      sendMessage_spec h text now w cur room enc hconn hroom htext henc
    have hrest : ∀ s ∈ rest, jsTrim s.1 ≠ "" ∧ (h.btoa (jsTrim s.1)).isSome = true :=
      fun s hs => htexts s (by simp [hs])
    have hcap1 : (roomAfterSend h room w.app.username enc now).messages.length ≤ 50 := by
      simp only [roomAfterSend, pushCapped_eq_lastN]
      exact lastN_length_le 50 _
    obtain ⟨w2, r, hall, hat, hmsgs⟩ := ih w1 cur _ hconn1 hroom1 hcap1 hrest
    refine ⟨w2, r, ?_, hat, ?_⟩
    · simp only [sendAll, hsend]
      exact hall
    · rw [hmsgs, huser1]
      simp only [roomAfterSend, pushCapped_eq_lastN, sentMessages, List.map_cons, henc,
        Option.getD_some]
      rw [lastN_append_lastN]
      simp

/-! ## Lemmas on the sweep and the empty-room timer -/

theorem cleanupEntry_eq (now : Int) (rooms : RoomTable) (entry : String × Room) :
    cleanupEntry now rooms entry =
      if Expired now entry.2 then tableDelete rooms entry.1 else rooms := by
  unfold cleanupEntry Expired
  by_cases ha : now - entry.2.lastActivity > 3600000
  · simp [ha]
  · by_cases hb : entry.2.users = [] ∧ now - entry.2.lastActivity > 300000
    · have hb1 : entry.2.users.length = 0 ∧ now - entry.2.lastActivity > 300000 := by
        simpa using hb
      rw [if_neg ha, if_pos hb1, if_pos (Or.inr hb)]
    · have hb1 : ¬ (entry.2.users.length = 0 ∧ now - entry.2.lastActivity > 300000) := by
        simpa using hb
      rw [if_neg ha, if_neg hb1, if_neg (fun hc => hc.elim ha hb)]

theorem tableGet_foldl_cleanupEntry (now : Int) (code : String) (entries : RoomTable) :
    ∀ acc : RoomTable,
      tableGet (entries.foldl (cleanupEntry now) acc) code =
        if ∃ e ∈ entries, e.1 = code ∧ Expired now e.2 then none else tableGet acc code := by
  induction entries with
  | nil => intro acc; simp
  | cons e rest ih =>
    intro acc
    rw [List.foldl_cons, ih, cleanupEntry_eq]
    by_cases hrest : ∃ e ∈ rest, e.1 = code ∧ Expired now e.2
    · have hall : ∃ e1 ∈ e :: rest, e1.1 = code ∧ Expired now e1.2 := by
        obtain ⟨e1, hmem, hp⟩ := hrest
        exact ⟨e1, List.mem_cons_of_mem _ hmem, hp⟩
      rw [if_pos hrest, if_pos hall]
    · rw [if_neg hrest]
      by_cases hexp : Expired now e.2
      · rw [if_pos hexp]
        by_cases hk : e.1 = code
        · have hall : ∃ e1 ∈ e :: rest, e1.1 = code ∧ Expired now e1.2 :=
            ⟨e, List.mem_cons_self _ _, hk, hexp⟩
          rw [if_pos hall, hk, tableGet_tableDelete_self]
        · have hall : ¬ ∃ e1 ∈ e :: rest, e1.1 = code ∧ Expired now e1.2 := by
            rintro ⟨e1, hmem, hp⟩
            rcases List.mem_cons.mp hmem with rfl | hmem
            · exact hk hp.1
            · exact hrest ⟨e1, hmem, hp⟩
          rw [if_neg hall, tableGet_tableDelete_ne _ _ _ (fun hc => hk hc.symm)]
      · rw [if_neg hexp]
        have hall : ¬ ∃ e1 ∈ e :: rest, e1.1 = code ∧ Expired now e1.2 := by
          rintro ⟨e1, hmem, hp⟩
          rcases List.mem_cons.mp hmem with rfl | hmem
          · exact hexp hp.2
          · exact hrest ⟨e1, hmem, hp⟩
        rw [if_neg hall]

theorem tableGet_of_mem (rooms : RoomTable) (hu : UniqueKeys rooms) (code : String) (room : Room)
    (hmem : (code, room) ∈ rooms) : tableGet rooms code = some room := by
  induction rooms with
  | nil => cases hmem
  | cons e rest ih =>
    obtain ⟨k, r⟩ := e
    unfold UniqueKeys at hu
    simp only [List.map_cons, List.nodup_cons] at hu
    rcases List.mem_cons.mp hmem with heq | hmem
    · cases heq
      simp [tableGet]
    · have hk : ¬ k = code := by
        intro hc
        subst hc
        exact hu.1 (List.mem_map.mpr ⟨(k, room), hmem, rfl⟩)
      simp only [tableGet, hk, if_false]
      exact ih hu.2 hmem

theorem mem_of_tableGet (rooms : RoomTable) (code : String) (room : Room)
    (hget : tableGet rooms code = some room) : (code, room) ∈ rooms := by
  induction rooms with
  | nil => simp [tableGet] at hget
  | cons e rest ih =>
    obtain ⟨k, r⟩ := e
    by_cases hk : k = code
    · simp only [tableGet, hk, if_true, Option.some.injEq] at hget
      subst hk; subst hget
      exact List.mem_cons_self _ _
    · simp only [tableGet, hk, if_false] at hget
      exact List.mem_cons_of_mem _ (ih hget)

/-! ## Lemmas on leaving -/

theorem clearIfSet_timers_filter_gt (field : Option Nat) (w : World) (n : Nat)
    (hle : ∀ id, field = some id → id ≤ n) :
    (clearIfSet field w).timers.filter (fun t => decide (n < t.id)) =
      w.timers.filter (fun t => decide (n < t.id)) := by
  cases field with
  | none => rfl
  | some id =>
    have hid : id ≤ n := hle id rfl
    simp only [clearIfSet]
    split_ifs
    · simp only [clearTimer, List.filter_filter]
      apply List.filter_congr
      intro t _
      by_cases ht : n < t.id
      · have : t.id ≠ id := by omega
        simp [ht, this]
      · simp [ht]
    · rfl

theorem dropRoomTimeout_chatRooms (w : World) : (dropRoomTimeout w).chatRooms = w.chatRooms := by
  unfold dropRoomTimeout
  split_ifs <;> simp [clearIfSet_chatRooms]

theorem dropTimerInterval_chatRooms (w : World) :
    (dropTimerInterval w).chatRooms = w.chatRooms := by
  unfold dropTimerInterval
  split_ifs <;> simp [clearIfSet_chatRooms]

theorem dropEmptyRoomTimeout_chatRooms (w : World) :
    (dropEmptyRoomTimeout w).chatRooms = w.chatRooms := by
  unfold dropEmptyRoomTimeout
  split_ifs <;> simp [clearIfSet_chatRooms]

theorem dropRoomTimeout_session (w : World) :
    (dropRoomTimeout w).app.isConnected = w.app.isConnected ∧
    (dropRoomTimeout w).app.currentRoom = w.app.currentRoom ∧
    (dropRoomTimeout w).app.username = w.app.username ∧
    (dropRoomTimeout w).app.timerInterval = w.app.timerInterval ∧
    (dropRoomTimeout w).app.emptyRoomTimeoutId = w.app.emptyRoomTimeoutId ∧
    (dropRoomTimeout w).lastTimerId = w.lastTimerId := by
  unfold dropRoomTimeout
  split_ifs <;> simp [clearIfSet_app, clearIfSet_lastTimerId]

theorem dropTimerInterval_session (w : World) :
    (dropTimerInterval w).app.isConnected = w.app.isConnected ∧
    (dropTimerInterval w).app.currentRoom = w.app.currentRoom ∧
    (dropTimerInterval w).app.username = w.app.username ∧
    (dropTimerInterval w).app.roomTimeoutId = w.app.roomTimeoutId ∧
    (dropTimerInterval w).app.emptyRoomTimeoutId = w.app.emptyRoomTimeoutId ∧
    (dropTimerInterval w).lastTimerId = w.lastTimerId := by
  unfold dropTimerInterval
  split_ifs <;> simp [clearIfSet_app, clearIfSet_lastTimerId]

theorem dropEmptyRoomTimeout_session (w : World) :
    (dropEmptyRoomTimeout w).app.isConnected = w.app.isConnected ∧
    (dropEmptyRoomTimeout w).app.currentRoom = w.app.currentRoom ∧
    (dropEmptyRoomTimeout w).app.username = w.app.username ∧
    (dropEmptyRoomTimeout w).app.roomTimeoutId = w.app.roomTimeoutId ∧
    (dropEmptyRoomTimeout w).app.timerInterval = w.app.timerInterval ∧
    (dropEmptyRoomTimeout w).lastTimerId = w.lastTimerId := by
  unfold dropEmptyRoomTimeout
  split_ifs <;> simp [clearIfSet_app, clearIfSet_lastTimerId]

theorem dropRoomTimeout_timers_filter_gt (w : World) (n : Nat)
    (hle : ∀ id, w.app.roomTimeoutId = some id → id ≤ n) :
    (dropRoomTimeout w).timers.filter (fun t => decide (n < t.id)) =
      w.timers.filter (fun t => decide (n < t.id)) := by
  unfold dropRoomTimeout
  split_ifs
  · exact clearIfSet_timers_filter_gt _ _ n hle
  · rfl

theorem dropTimerInterval_timers_filter_gt (w : World) (n : Nat)
    (hle : ∀ id, w.app.timerInterval = some id → id ≤ n) :
    (dropTimerInterval w).timers.filter (fun t => decide (n < t.id)) =
      w.timers.filter (fun t => decide (n < t.id)) := by
  unfold dropTimerInterval
  split_ifs
  · exact clearIfSet_timers_filter_gt _ _ n hle
  · rfl

theorem dropEmptyRoomTimeout_timers_filter_gt (w : World) (n : Nat)
    (hle : ∀ id, w.app.emptyRoomTimeoutId = some id → id ≤ n) :
    (dropEmptyRoomTimeout w).timers.filter (fun t => decide (n < t.id)) =
      w.timers.filter (fun t => decide (n < t.id)) := by
  unfold dropEmptyRoomTimeout
  split_ifs
  · exact clearIfSet_timers_filter_gt _ _ n hle
  · rfl

theorem resetToRoomSetup_chatRooms (w : World) :
    (resetToRoomSetup w).chatRooms = w.chatRooms := by
  unfold resetToRoomSetup
  simp only [dropEmptyRoomTimeout_chatRooms, dropTimerInterval_chatRooms,
    dropRoomTimeout_chatRooms, clearSessionFields]

theorem resetToRoomSetup_session (w : World) :
    (resetToRoomSetup w).app.isConnected = false ∧ (resetToRoomSetup w).app.currentRoom = none ∧
    (resetToRoomSetup w).app.username = "" := by
  unfold resetToRoomSetup
  simp only []
  obtain ⟨a1, a2, a3, _⟩ := dropEmptyRoomTimeout_session
    (dropTimerInterval (dropRoomTimeout (clearSessionFields w)))
  obtain ⟨b1, b2, b3, _⟩ := dropTimerInterval_session (dropRoomTimeout (clearSessionFields w))
  obtain ⟨c1, c2, c3, _⟩ := dropRoomTimeout_session (clearSessionFields w)
  exact ⟨by rw [a1, b1, c1]; rfl, by rw [a2, b2, c2]; rfl, by rw [a3, b3, c3]; rfl⟩

theorem resetToRoomSetup_timers_filter_gt (w : World) (n : Nat)
    (h1 : ∀ id, w.app.roomTimeoutId = some id → id ≤ n)
    (h2 : ∀ id, w.app.timerInterval = some id → id ≤ n)
    (h3 : ∀ id, w.app.emptyRoomTimeoutId = some id → id ≤ n) :
    (resetToRoomSetup w).timers.filter (fun t => decide (n < t.id)) =
      w.timers.filter (fun t => decide (n < t.id)) := by
  unfold resetToRoomSetup
  simp only []
  obtain ⟨_, _, _, b4, b5, _⟩ := dropTimerInterval_session (dropRoomTimeout (clearSessionFields w))
  obtain ⟨_, _, _, c4, c5, _⟩ := dropRoomTimeout_session (clearSessionFields w)
  rw [dropEmptyRoomTimeout_timers_filter_gt _ n (by rw [b5, c5]; exact h3),
    dropTimerInterval_timers_filter_gt _ n (by rw [c4]; exact h2),
    dropRoomTimeout_timers_filter_gt (clearSessionFields w) n h1]
  rfl

/-- What `handleUserLeaving()` computes when the current room is stored. -/
theorem handleUserLeaving_eq (h : Host) (now : Int) (w : World) (cur : String) (room : Room)
    (hcur : w.app.currentRoom = some cur) (hne : cur ≠ "") (hroom : RoomAt w cur room) :
    handleUserLeaving h now w =
      saveRoom
        { room with
          messages := pushCapped room.messages
            (systemMessage h (w.app.username ++ " left the room") now)
          users := room.users.filter (fun user => user != w.app.username)
          lastActivity := now }
        (if (room.users.filter (fun user => user != w.app.username)).length = 0 then
          startEmptyRoomTimer (some cur) now
            (saveRoom
              { room with
                messages := pushCapped room.messages
                  (systemMessage h (w.app.username ++ " left the room") now)
                lastActivity := now } w)
        else
          saveRoom
            { room with
              messages := pushCapped room.messages
                (systemMessage h (w.app.username ++ " left the room") now)
              lastActivity := now } w) := by
  obtain ⟨hget, hcode⟩ := hroom
  have h1 := saveMessage_eq (systemMessage h (w.app.username ++ " left the room") now)
    now w cur room hcur hne hget
  have hget1 : tableGet (saveRoom
      { room with
        messages := pushCapped room.messages
          (systemMessage h (w.app.username ++ " left the room") now)
        lastActivity := now } w).chatRooms cur =
      some { room with
        messages := pushCapped room.messages
          (systemMessage h (w.app.username ++ " left the room") now)
        lastActivity := now } := by
    have := saveRoom_get_self
      { room with
        messages := pushCapped room.messages
          (systemMessage h (w.app.username ++ " left the room") now)
        lastActivity := now } w
    simpa [hcode] using this
  simp only [handleUserLeaving, addSystemMessagePlain, h1, removeUserFromRoom, getRooms]
  have happ : (saveRoom
      { room with
        messages := pushCapped room.messages
          (systemMessage h (w.app.username ++ " left the room") now)
        lastActivity := now } w).app = w.app := rfl
  rw [happ, hcur]
  simp only [propertyKey, hget1]

/-! ## Lemmas on the inactivity timer -/

theorem mem_clearIfSet_timers (field : Option Nat) (w : World) (t : Timer) :
    t ∈ (clearIfSet field w).timers ↔
      t ∈ w.timers ∧ ¬ (field = some t.id ∧ t.id ≠ 0) := by
  cases field with
  | none => simp [clearIfSet]
  | some id =>
    simp only [clearIfSet, truthyId]
    by_cases hid : id = 0
    · subst hid
      simp only [bne_self_eq_false, Bool.false_eq_true, if_false, Option.some.injEq]
      constructor
      · intro hm
        exact ⟨hm, fun hc => hc.2 hc.1.symm⟩
      · exact fun hm => hm.1
    · have hb : (id != 0) = true := by simpa using hid
      simp only [hb, if_true, clearTimer, List.mem_filter, Option.some.injEq]
      constructor
      · rintro ⟨hm, hne⟩
        refine ⟨hm, fun hc => ?_⟩
        have : t.id = id := hc.1.symm
        simp [this] at hne
      · rintro ⟨hm, hnot⟩
        refine ⟨hm, ?_⟩
        have : t.id ≠ id := fun hc => hnot ⟨by rw [hc], by rw [hc]; exact hid⟩
        simpa using this

/-- After `startRoomTimer()` the only pending inactivity timer is the new one. -/
theorem startRoomTimer_roomTimeout (now : Int) (w : World)
    (htracked : ∀ t ∈ w.timers, t.kind = TimerKind.roomTimeout →
      w.app.roomTimeoutId = some t.id ∧ t.id ≠ 0) :
    (startRoomTimer now w).app.roomTimeoutId = some (w.lastTimerId + 1) ∧
    (startRoomTimer now w).timers.filter (fun t => decide (t.kind = TimerKind.roomTimeout)) =
      [⟨w.lastTimerId + 1, now + 3600000, TimerKind.roomTimeout⟩] := by
  have hnone : (clearIfSet (clearIfSet w.app.roomTimeoutId w).app.timerInterval
      (clearIfSet w.app.roomTimeoutId w)).timers.filter
        (fun t => decide (t.kind = TimerKind.roomTimeout)) = [] := by
    rw [List.filter_eq_nil_iff]
    intro t ht
    rw [mem_clearIfSet_timers, mem_clearIfSet_timers] at ht
    obtain ⟨⟨hm, hnot⟩, _⟩ := ht
    simp only [decide_eq_true_eq]
    intro hk
    exact hnot (htracked t hm hk)
  constructor
  · simp [startRoomTimer, setTimer, clearIfSet_lastTimerId]
  · simp only [startRoomTimer, setTimer, clearIfSet_lastTimerId, List.filter_append, hnone]
    simp

/-- The page of alice satisfies `TimersOk`. -/
theorem sampleWorld_timersOk : TimersOk sampleWorld where
  pending_le := by decide
  roomTimeout_le := by
    intro id hid
    have : id = 2 := by simpa [sampleWorld] using hid.symm
    subst this
    decide
  interval_le := by
    intro id hid
    have : id = 3 := by simpa [sampleWorld] using hid.symm
    subst this
    decide
  emptyRoom_le := by
    intro id hid
    simp [sampleWorld] at hid
  tracked := by decide

/-! ## Handles stay allocated in order on every reachable page -/

theorem timersOk_of_same (w w1 : World) (ht : w1.timers = w.timers)
    (hl : w1.lastTimerId = w.lastTimerId)
    (h1 : w1.app.roomTimeoutId = w.app.roomTimeoutId)
    (h2 : w1.app.timerInterval = w.app.timerInterval)
    (h3 : w1.app.emptyRoomTimeoutId = w.app.emptyRoomTimeoutId) (hok : TimersOk w) :
    TimersOk w1 where
  pending_le := by rw [ht, hl]; exact hok.pending_le
  roomTimeout_le := by rw [h1, hl]; exact hok.roomTimeout_le
  interval_le := by rw [h2, hl]; exact hok.interval_le
  emptyRoom_le := by rw [h3, hl]; exact hok.emptyRoom_le
  tracked := by rw [ht, h1]; exact hok.tracked

theorem timersOk_setTimer (delay : Int) (kind : TimerKind) (now : Int) (w : World)
    (hkind : kind ≠ TimerKind.roomTimeout) (hok : TimersOk w) :
    TimersOk (setTimer delay kind now w).2 where
  pending_le := by
    intro t ht
    simp only [setTimer, List.mem_append, List.mem_singleton] at ht ⊢
    rcases ht with hm | rfl
    · have := hok.pending_le t hm; omega
    · exact le_refl _
  roomTimeout_le := by
    intro id hid
    have := hok.roomTimeout_le id hid
    simp only [setTimer]; omega
  interval_le := by
    intro id hid
    have := hok.interval_le id hid
    simp only [setTimer]; omega
  emptyRoom_le := by
    intro id hid
    have := hok.emptyRoom_le id hid
    simp only [setTimer]; omega
  tracked := by
    intro t ht hk
    simp only [setTimer, List.mem_append, List.mem_singleton] at ht
    rcases ht with hm | rfl
    · exact hok.tracked t hm hk
    · exact absurd hk hkind

theorem timersOk_clearTimer (id : Nat) (w : World) (hok : TimersOk w) :
    TimersOk (clearTimer id w) where
  pending_le := fun t ht => hok.pending_le t (List.mem_of_mem_filter ht)
  roomTimeout_le := hok.roomTimeout_le
  interval_le := hok.interval_le
  emptyRoom_le := hok.emptyRoom_le
  tracked := fun t ht hk => hok.tracked t (List.mem_of_mem_filter ht) hk

theorem timersOk_clearIfSet (field : Option Nat) (w : World) (hok : TimersOk w) :
    TimersOk (clearIfSet field w) := by
  cases field with
  | none => exact hok
  | some id =>
    simp only [clearIfSet]
    split_ifs
    · exact timersOk_clearTimer id w hok
    · exact hok

theorem timersOk_saveRoom (room : Room) (w : World) (hok : TimersOk w) :
    TimersOk (saveRoom room w) :=
  timersOk_of_same w _ rfl rfl rfl rfl rfl hok

theorem timersOk_saveMessage (message : Message) (now : Int) (w : World) (hok : TimersOk w) :
    TimersOk (saveMessage message now w) := by
  unfold saveMessage
  split_ifs
  · exact hok
  · simp only []
    split
    · exact timersOk_saveRoom _ _ hok
    · exact hok

theorem timersOk_showError (message : String) (now : Int) (w : World) (hok : TimersOk w) :
    TimersOk (showError message now w) := by
  unfold showError
  exact timersOk_setTimer _ _ _ _ (by decide)
    (timersOk_of_same w { w with errors := w.errors ++ [message] } rfl rfl rfl rfl rfl hok)

theorem timersOk_startRoomTimer (now : Int) (w : World) (hok : TimersOk w) :
    TimersOk (startRoomTimer now w) := by
  have hnone : ∀ t ∈ (clearIfSet (clearIfSet w.app.roomTimeoutId w).app.timerInterval
      (clearIfSet w.app.roomTimeoutId w)).timers, t.kind ≠ TimerKind.roomTimeout := by
    intro t ht hk
    rw [mem_clearIfSet_timers, mem_clearIfSet_timers] at ht
    exact ht.1.2 (hok.tracked t ht.1.1 hk)
  have hle : ∀ t ∈ (clearIfSet (clearIfSet w.app.roomTimeoutId w).app.timerInterval
      (clearIfSet w.app.roomTimeoutId w)).timers, t.id ≤ w.lastTimerId := by
    intro t ht
    rw [mem_clearIfSet_timers, mem_clearIfSet_timers] at ht
    exact hok.pending_le t ht.1.1
  constructor
  · intro t ht
    simp only [startRoomTimer, setTimer, clearIfSet_lastTimerId, List.mem_append,
      List.mem_singleton] at ht ⊢
    rcases ht with (hm | rfl) | rfl
    · have := hle t hm; omega
    · simp
    · simp
  · intro id hid
    simp only [startRoomTimer, setTimer, clearIfSet_lastTimerId, Option.some.injEq] at hid ⊢
    omega
  · intro id hid
    simp only [startRoomTimer, setTimer, clearIfSet_lastTimerId, Option.some.injEq] at hid ⊢
    omega
  · intro id hid
    simp only [startRoomTimer, setTimer, clearIfSet_lastTimerId, clearIfSet_app] at hid ⊢
    have := hok.emptyRoom_le id hid
    omega
  · intro t ht hk
    simp only [startRoomTimer, setTimer, clearIfSet_lastTimerId, List.mem_append,
      List.mem_singleton] at ht ⊢
    rcases ht with (hm | rfl) | rfl
    · exact absurd hk (hnone t hm)
    · simp
    · simp at hk

theorem timersOk_dropRoomTimeout (w : World) (hok : TimersOk w) :
    TimersOk (dropRoomTimeout w) := by
  unfold dropRoomTimeout
  split_ifs
  · have hc := timersOk_clearIfSet w.app.roomTimeoutId w hok
    constructor
    · exact hc.pending_le
    · intro id hid
      simp at hid
    · intro id hid
      exact hc.interval_le id hid
    · intro id hid
      exact hc.emptyRoom_le id hid
    · intro t ht hk
      have ht1 : t ∈ (clearIfSet w.app.roomTimeoutId w).timers := ht
      rw [mem_clearIfSet_timers] at ht1
      exact absurd (hok.tracked t ht1.1 hk) ht1.2
  · exact hok

theorem timersOk_dropTimerInterval (w : World) (hok : TimersOk w) :
    TimersOk (dropTimerInterval w) := by
  unfold dropTimerInterval
  split_ifs
  · have hc := timersOk_clearIfSet w.app.timerInterval w hok
    constructor
    · exact hc.pending_le
    · intro id hid
      exact hc.roomTimeout_le id hid
    · intro id hid
      simp at hid
    · intro id hid
      exact hc.emptyRoom_le id hid
    · intro t ht hk
      exact hc.tracked t ht hk
  · exact hok

theorem timersOk_dropEmptyRoomTimeout (w : World) (hok : TimersOk w) :
    TimersOk (dropEmptyRoomTimeout w) := by
  unfold dropEmptyRoomTimeout
  split_ifs
  · have hc := timersOk_clearIfSet w.app.emptyRoomTimeoutId w hok
    constructor
    · exact hc.pending_le
    · intro id hid
      exact hc.roomTimeout_le id hid
    · intro id hid
      exact hc.interval_le id hid
    · intro id hid
      simp at hid
    · intro t ht hk
      exact hc.tracked t ht hk
  · exact hok

theorem timersOk_resetToRoomSetup (w : World) (hok : TimersOk w) :
    TimersOk (resetToRoomSetup w) := by
  unfold resetToRoomSetup
  exact timersOk_dropEmptyRoomTimeout _ (timersOk_dropTimerInterval _ (timersOk_dropRoomTimeout _
    (timersOk_of_same w (clearSessionFields w) rfl rfl rfl rfl rfl hok)))

theorem timersOk_addSystemMessagePlain (h : Host) (content : String) (now : Int)
    (w : World) (hok : TimersOk w) : TimersOk (addSystemMessagePlain h content now w) :=
  timersOk_saveMessage _ _ _ hok

theorem timersOk_updateRoomActivity (now : Int) (w : World) (hok : TimersOk w) :
    TimersOk (updateRoomActivity now w) := by
  unfold updateRoomActivity
  split_ifs
  · exact hok
  · simp only []
    apply timersOk_startRoomTimer
    split
    · exact timersOk_saveRoom _ _ hok
    · exact hok

theorem timersOk_joinRoomWithCode (h : Host) (username roomCode : String) (now : Int) (w : World)
    (hok : TimersOk w) : TimersOk (joinRoomWithCode h username roomCode now w) := by
  unfold joinRoomWithCode
  exact timersOk_dropEmptyRoomTimeout _ (timersOk_startRoomTimer _ _
    (timersOk_addSystemMessagePlain _ _ _ _ (timersOk_of_same w _ rfl rfl rfl rfl rfl hok)))

theorem timersOk_createRoom (h : Host) (usernameInput : String) (randomText : String)
    (now : Int) (w : World) (hok : TimersOk w) :
    TimersOk (createRoom h usernameInput randomText now w) := by
  unfold createRoom
  simp only []
  split_ifs
  · exact timersOk_showError _ _ _ hok
  · exact timersOk_showError _ _ _ hok
  · exact timersOk_joinRoomWithCode _ _ _ _ _ (timersOk_saveRoom _ _ hok)

theorem timersOk_joinRoom (h : Host) (usernameInput roomCodeInput : String) (now : Int)
    (w : World) (hok : TimersOk w) : TimersOk (joinRoom h usernameInput roomCodeInput now w) := by
  unfold joinRoom
  simp only []
  split_ifs
  · exact timersOk_showError _ _ _ hok
  · exact timersOk_showError _ _ _ hok
  · exact timersOk_showError _ _ _ hok
  · split
    · exact timersOk_showError _ _ _ hok
    · split_ifs <;>
        first
          | exact timersOk_showError _ _ _ hok
          | exact timersOk_joinRoomWithCode _ _ _ _ _ (timersOk_saveRoom _ _ hok)

theorem timersOk_removeUserFromRoom (now : Int) (w : World) (hok : TimersOk w) :
    TimersOk (removeUserFromRoom now w) := by
  unfold removeUserFromRoom
  simp only []
  split
  · apply timersOk_saveRoom
    split_ifs
    · exact timersOk_setTimer _ _ _ _ (by simp) hok
    · exact hok
  · exact hok

theorem timersOk_handleUserLeaving (h : Host) (now : Int) (w : World) (hok : TimersOk w) :
    TimersOk (handleUserLeaving h now w) :=
  timersOk_removeUserFromRoom _ _ (timersOk_addSystemMessagePlain _ _ _ _ hok)

theorem timersOk_leaveRoom (h : Host) (now : Int) (w : World) (hok : TimersOk w) :
    TimersOk (leaveRoom h now w) := by
  unfold leaveRoom
  apply timersOk_resetToRoomSetup
  split_ifs
  · exact timersOk_handleUserLeaving _ _ _ hok
  · exact hok

theorem timersOk_sendMessage (h : Host) (messageInput : String) (now : Int) (w w1 : World)
    (hsent : sendMessage h messageInput now w = Except.ok w1) (hok : TimersOk w) :
    TimersOk w1 := by
  unfold sendMessage at hsent
  simp only [] at hsent
  split_ifs at hsent
  · cases hsent
    exact hok
  · split at hsent
    · cases hsent
      exact timersOk_updateRoomActivity _ _ (timersOk_saveMessage _ _ _ hok)
    · cases hsent

theorem timersOk_fireTimer (h : Host) (t : Timer) (now : Int) (w : World) (hok : TimersOk w) :
    TimersOk (fireTimer h t now w) := by
  unfold fireTimer
  split
  · unfold onRoomTimeout
    split_ifs
    · exact timersOk_setTimer _ _ _ _ (by decide)
        (timersOk_addSystemMessagePlain _ _ _ _ (timersOk_clearTimer _ _ hok))
    · exact timersOk_clearTimer _ _ hok
  · unfold onDeleteAfterNotice deleteRoom
    exact timersOk_resetToRoomSetup _
      (timersOk_of_same (clearTimer t.id w) _ rfl rfl rfl rfl rfl (timersOk_clearTimer _ _ hok))
  · unfold onEmptyRoomTimer
    simp only []
    split
    · split_ifs
      · exact timersOk_of_same (clearTimer t.id w) _ rfl rfl rfl rfl rfl
          (timersOk_clearTimer _ _ hok)
      · exact timersOk_clearTimer _ _ hok
    · exact timersOk_clearTimer _ _ hok
  · exact hok
  · exact timersOk_of_same w _ rfl rfl rfl rfl rfl hok
  · exact timersOk_clearTimer _ _ hok

theorem timersOk_newChatApp (rooms : RoomTable) (now : Int) : TimersOk (newChatApp rooms now) := by
  unfold newChatApp startRoomCleanup
  apply timersOk_setTimer _ _ _ _ (by decide)
  constructor <;> simp

/-- Every state of a page satisfies `TimersOk`. -/
theorem reachable_timersOk (h : Host) (w : World) (hw : Reachable h w) : TimersOk w := by
  induction hw with
  | init rooms now => exact timersOk_newChatApp rooms now
  | step w w1 _ hstep ih =>
    cases hstep with
    | createRoom u r now => exact timersOk_createRoom _ _ _ _ _ ih
    | joinRoom u c now => exact timersOk_joinRoom _ _ _ _ _ ih
    | leaveRoom now => exact timersOk_leaveRoom _ _ _ ih
    | sendMessage m now _ _ hsent => exact timersOk_sendMessage _ _ _ _ _ hsent ih
    | beforeUnload now =>
      unfold onBeforeUnload
      split_ifs
      · exact timersOk_handleUserLeaving _ _ _ ih
      · exact ih
    | visibilityChange hidden now =>
      unfold onVisibilityChange
      split_ifs
      · exact timersOk_handleUserLeaving _ _ _ ih
      · exact ih
    | fire t now _ hpending => exact timersOk_fireTimer _ _ _ _ ih
    | storage rooms => exact timersOk_of_same w _ rfl rfl rfl rfl rfl ih

/-! ## The signal listeners leave the session fields alone -/

theorem saveMessage_app (message : Message) (now : Int) (w : World) :
    (saveMessage message now w).app = w.app := by
  unfold saveMessage
  split_ifs
  · rfl
  · simp only []
    split <;> rfl

theorem removeUserFromRoom_app (now : Int) (w : World) :
    (removeUserFromRoom now w).app = w.app := by
  unfold removeUserFromRoom
  simp only []
  split
  · simp only [saveRoom]
    split_ifs <;> rfl
  · rfl

theorem handleUserLeaving_app (h : Host) (now : Int) (w : World) :
    (handleUserLeaving h now w).app = w.app := by
  unfold handleUserLeaving
  simp only [removeUserFromRoom_app, addSystemMessagePlain, saveMessage_app]

/-- Neither listener changes a field of the session, on any page. -/
theorem signal_listeners_keep_session (h : Host) (hidden : Bool) (now : Int) (w : World) :
    (onVisibilityChange h hidden now w).app = w.app ∧ (onBeforeUnload h now w).app = w.app := by
  unfold onVisibilityChange onBeforeUnload
  constructor <;> split_ifs <;> first | rfl | exact handleUserLeaving_app h now w

/-! ## The 50-message cap is kept by every event of the page -/

theorem capped_tableSet (rooms : RoomTable) (code : String) (room : Room)
    (hroom : room.messages.length ≤ 50) (hc : Capped rooms) :
    Capped (tableSet rooms code room) := by
  induction rooms with
  | nil =>
    intro e he
    simp only [tableSet, List.mem_singleton] at he
    subst he
    exact hroom
  | cons e rest ih =>
    obtain ⟨k1, r1⟩ := e
    have hrest : Capped rest := fun e he => hc e (List.mem_cons_of_mem _ he)
    intro e he
    by_cases hk1 : k1 = code
    · simp only [tableSet, hk1, if_true, List.mem_cons] at he
      rcases he with rfl | he
      · exact hroom
      · exact hrest e he
    · simp only [tableSet, hk1, if_false, List.mem_cons] at he
      rcases he with rfl | he
      · exact hc (k1, r1) (List.mem_cons_self _ _)
      · exact ih hrest e he

theorem capped_tableDelete (rooms : RoomTable) (code : String) (hc : Capped rooms) :
    Capped (tableDelete rooms code) :=
  fun e he => hc e (List.mem_of_mem_filter he)

theorem capped_of_tableGet (rooms : RoomTable) (code : String) (room : Room) (hc : Capped rooms)
    (hget : tableGet rooms code = some room) : room.messages.length ≤ 50 :=
  hc (code, room) (mem_of_tableGet rooms code room hget)

theorem capped_foldl_cleanupEntry (now : Int) (entries : RoomTable) :
    ∀ acc : RoomTable, Capped acc → Capped (entries.foldl (cleanupEntry now) acc) := by
  induction entries with
  | nil => intro acc hc; exact hc
  | cons e rest ih =>
    intro acc hc
    rw [List.foldl_cons]
    apply ih
    rw [cleanupEntry_eq]
    split_ifs
    · exact capped_tableDelete _ _ hc
    · exact hc

theorem capped_saveRoom (room : Room) (w : World) (hroom : room.messages.length ≤ 50)
    (hc : Capped w.chatRooms) : Capped (saveRoom room w).chatRooms :=
  capped_tableSet _ _ _ hroom hc

/-- `saveMessage` stores at most 50 messages even for a room that held more. -/
theorem capped_saveMessage (message : Message) (now : Int) (w : World)
    (hc : Capped w.chatRooms) : Capped (saveMessage message now w).chatRooms := by
  unfold saveMessage
  split_ifs
  · exact hc
  · simp only []
    split
    · apply capped_saveRoom _ _ _ hc
      simp only [pushCapped_eq_lastN]
      exact lastN_length_le 50 _
    · exact hc

theorem capped_updateRoomActivity (now : Int) (w : World) (hc : Capped w.chatRooms) :
    Capped (updateRoomActivity now w).chatRooms := by
  unfold updateRoomActivity
  split_ifs
  · exact hc
  · simp only [startRoomTimer_chatRooms]
    split
    · rename_i room hget
      exact capped_saveRoom _ _ (capped_of_tableGet _ _ room hc hget) hc
    · exact hc

theorem capped_joinRoomWithCode (h : Host) (username roomCode : String) (now : Int) (w : World)
    (hc : Capped w.chatRooms) : Capped (joinRoomWithCode h username roomCode now w).chatRooms := by
  unfold joinRoomWithCode
  simp only [dropEmptyRoomTimeout_chatRooms, startRoomTimer_chatRooms, addSystemMessagePlain]
  exact capped_saveMessage _ _ _ hc

theorem capped_createRoom (h : Host) (usernameInput : String) (randomText : String)
    (now : Int) (w : World) (hc : Capped w.chatRooms) :
    Capped (createRoom h usernameInput randomText now w).chatRooms := by
  unfold createRoom
  simp only []
  split_ifs
  · exact hc
  · exact hc
  · exact capped_joinRoomWithCode _ _ _ _ _ (capped_saveRoom _ _ (by simp) hc)

theorem capped_joinRoom (h : Host) (usernameInput roomCodeInput : String) (now : Int)
    (w : World) (hc : Capped w.chatRooms) :
    Capped (joinRoom h usernameInput roomCodeInput now w).chatRooms := by
  unfold joinRoom
  simp only []
  split_ifs
  · exact hc
  · exact hc
  · exact hc
  · split
    · exact hc
    · rename_i room hget
      split_ifs <;>
        first
          | exact hc
          | exact capped_joinRoomWithCode _ _ _ _ _
              (capped_saveRoom _ _ (capped_of_tableGet _ _ room hc hget) hc)

theorem capped_removeUserFromRoom (now : Int) (w : World) (hc : Capped w.chatRooms) :
    Capped (removeUserFromRoom now w).chatRooms := by
  unfold removeUserFromRoom
  simp only []
  split
  · rename_i room hget
    have hroom := capped_of_tableGet _ _ room hc hget
    split_ifs
    · exact capped_tableSet _ _ _ hroom hc
    · exact capped_tableSet _ _ _ hroom hc
  · exact hc

theorem capped_handleUserLeaving (h : Host) (now : Int) (w : World) (hc : Capped w.chatRooms) :
    Capped (handleUserLeaving h now w).chatRooms :=
  capped_removeUserFromRoom _ _ (capped_saveMessage _ _ _ hc)

theorem capped_leaveRoom (h : Host) (now : Int) (w : World) (hc : Capped w.chatRooms) :
    Capped (leaveRoom h now w).chatRooms := by
  unfold leaveRoom
  simp only [resetToRoomSetup_chatRooms]
  split_ifs
  · exact capped_handleUserLeaving _ _ _ hc
  · exact hc

theorem capped_sendMessage (h : Host) (messageInput : String) (now : Int) (w w1 : World)
    (hsent : sendMessage h messageInput now w = Except.ok w1) (hc : Capped w.chatRooms) :
    Capped w1.chatRooms := by
  unfold sendMessage at hsent
  simp only [] at hsent
  split_ifs at hsent
  · cases hsent
    exact hc
  · split at hsent
    · cases hsent
      exact capped_updateRoomActivity _ _ (capped_saveMessage _ _ _ hc)
    · cases hsent

theorem capped_fireTimer (h : Host) (t : Timer) (now : Int) (w : World)
    (hc : Capped w.chatRooms) : Capped (fireTimer h t now w).chatRooms := by
  unfold fireTimer
  split
  · unfold onRoomTimeout
    split_ifs
    · exact capped_saveMessage _ _ (clearTimer t.id w) hc
    · exact hc
  · unfold onDeleteAfterNotice
    rw [resetToRoomSetup_chatRooms]
    exact capped_tableDelete _ _ hc
  · unfold onEmptyRoomTimer
    simp only []
    split
    · split_ifs
      · exact capped_tableDelete _ _ hc
      · exact hc
    · exact hc
  · exact hc
  · exact capped_foldl_cleanupEntry now _ _ hc
  · exact hc

/-- Every event of the page keeps the cap: if each stored room holds at most 50
messages, so does each stored room afterwards, a table written by another
page being capped by assumption. -/
theorem capped_step (h : Host) (w w1 : World) (hstep : Step h w w1) (hc : Capped w.chatRooms)
    (hforeign : ∀ rooms, w1 = { w with chatRooms := rooms } → Capped rooms) :
    Capped w1.chatRooms := by
  cases hstep with
  | createRoom u r now => exact capped_createRoom _ _ _ _ _ hc
  | joinRoom u c now => exact capped_joinRoom _ _ _ _ _ hc
  | leaveRoom now => exact capped_leaveRoom _ _ _ hc
  | sendMessage m now _ _ hsent => exact capped_sendMessage _ _ _ _ _ hsent hc
  | beforeUnload now =>
    unfold onBeforeUnload
    split_ifs
    · exact capped_handleUserLeaving _ _ _ hc
    · exact hc
  | visibilityChange hidden now =>
    unfold onVisibilityChange
    split_ifs
    · exact capped_handleUserLeaving _ _ _ hc
    · exact hc
  | fire t now _ hpending => exact capped_fireTimer _ _ _ _ hc
  | storage rooms => exact hforeign rooms rfl

/-! ## The claims -/

/-- C1, counterexample: `saveRoom` writes a room of 51 messages as it is, so
the entry stored under its code holds more than 50 messages. -/
theorem saveRoom_keeps_51_messages :
    ∃ r, tableGet (saveRoom room51 (newChatApp [] 0)).chatRooms room51.code = some r ∧
      ¬ r.messages.length ≤ 50 :=
  ⟨room51, by decide, by decide⟩

/-- C1, amended: `saveRoom` stores the room exactly as given under `room.code`
(so the entry holds at most 50 messages whenever the given room does), and
the cap is enforced by `saveMessage`: appending to the stored current room
leaves the last 50 of its messages followed by the new one, at most 50. -/
theorem saveRoom_stores_as_given_saveMessage_caps (w : World) :
    (∀ room : Room, tableGet (saveRoom room w).chatRooms room.code = some room) ∧
    (∀ (message : Message) (now : Int) (cur : String) (room : Room),
      w.app.currentRoom = some cur → cur ≠ "" → RoomAt w cur room →
      ∃ r, tableGet (saveMessage message now w).chatRooms cur = some r ∧
        r.messages = lastN 50 (room.messages ++ [message]) ∧ r.messages.length ≤ 50) := by
  refine ⟨fun room => saveRoom_get_self room w, ?_⟩
  intro message now cur room hcur hne hroom
  obtain ⟨hget, hcode⟩ := hroom
  rw [saveMessage_eq message now w cur room hcur hne hget]
  refine ⟨{ room with messages := pushCapped room.messages message, lastActivity := now },
    ?_, ?_, ?_⟩
  · have := saveRoom_get_self
      { room with messages := pushCapped room.messages message, lastActivity := now } w
    simpa [hcode] using this
  · simp [pushCapped_eq_lastN]
  · simpa [pushCapped_eq_lastN] using lastN_length_le 50 (room.messages ++ [message])

/-- Witness for C1 (amended): appending a third message to the stored room of alice. -/
theorem saveRoom_stores_as_given_saveMessage_caps_witness :
    ∃ r, tableGet (saveMessage (sampleMessage 3) 3000 sampleWorld).chatRooms "AB12CD" = some r ∧
      r.messages = lastN 50 (sampleRoom.messages ++ [sampleMessage 3]) ∧ r.messages.length ≤ 50 :=
  (saveRoom_stores_as_given_saveMessage_caps sampleWorld).2 (sampleMessage 3) 3000 "AB12CD"
    sampleRoom (by decide) (by decide) ⟨by decide, by decide⟩

/-- Retention for the texts `btoa` accepts: on a connected session whose room
is stored with at most 50 messages, each `sendMessage` with such a non-blank
text leaves the stored messages equal to the last 50 of the previous messages
followed by the new message; after 50 or more consecutive sends the stored
messages are exactly the 50 most recently sent messages, in send order. -/
theorem sendMessage_keeps_last_50 (h : Host) (w : World) (cur : String) (room : Room)
    (hconn : Connected w cur) (hroom : RoomAt w cur room) (hcap : room.messages.length ≤ 50) :
    (∀ (text : String) (now : Int) (enc : String), jsTrim text ≠ "" →
      h.btoa (jsTrim text) = some enc →
      ∃ w1 r, sendMessage h text now w = Except.ok w1 ∧ RoomAt w1 cur r ∧
        r.messages = lastN 50 (room.messages ++ [userMessage h w.app.username enc now])) ∧
    (∀ sends : List (String × Int),
      (∀ s ∈ sends, jsTrim s.1 ≠ "" ∧ (h.btoa (jsTrim s.1)).isSome = true) →
      50 ≤ sends.length →
      ∃ w1 r, sendAll h sends w = Except.ok w1 ∧ RoomAt w1 cur r ∧
        r.messages = lastN 50 (sentMessages h w.app.username sends) ∧
        r.messages.length = 50) := by
  constructor
  · intro text now enc htext henc
    obtain ⟨w1, hsend, _, _, hat⟩ :=
      sendMessage_spec h text now w cur room enc hconn hroom htext henc
    exact ⟨w1, _, hsend, hat, by simp [roomAfterSend, pushCapped_eq_lastN]⟩
  · intro sends htexts hlen
    obtain ⟨w1, r, hall, hat, hmsgs⟩ := sendAll_spec h sends w cur room hconn hroom hcap htexts
    have hmap : 50 ≤ (sentMessages h w.app.username sends).length := by
      simpa [sentMessages] using hlen
    rw [lastN_append_of_le 50 _ _ hmap] at hmsgs
    refine ⟨w1, r, hall, hat, hmsgs, ?_⟩
    rw [hmsgs]
    unfold lastN
    simp only [List.length_drop]
    omega

/-- On the page of alice, whose room holds two messages, 51 consecutive sends
of an ASCII text leave exactly the last 50 messages sent. -/
theorem sendMessage_keeps_last_50_on_sample :
    Connected sampleWorld "AB12CD" ∧ RoomAt sampleWorld "AB12CD" sampleRoom ∧
    sampleRoom.messages.length ≤ 50 ∧
    ∃ w1 r, sendAll asciiHost sends51 sampleWorld = Except.ok w1 ∧ RoomAt w1 "AB12CD" r ∧
      r.messages = lastN 50 (sentMessages asciiHost "alice" sends51) ∧
      r.messages.length = 50 :=
  ⟨⟨by decide, by decide, by decide⟩, ⟨by decide, by decide⟩, by decide,
    (sendMessage_keeps_last_50 asciiHost sampleWorld "AB12CD" sampleRoom
      ⟨by decide, by decide, by decide⟩ ⟨by decide, by decide⟩ (by decide)).2 sends51
      (by decide) (by decide)⟩

/-- C2, failing input: alice, connected to her stored room, sends the non-blank
text `你好`.  `btoa` raises `InvalidCharacterError` inside `encryptMessage`,
before `saveMessage` is reached: the handler ends with the exception and the
message is never stored, so the stored messages are not the previous ones
followed by the new message. -/
theorem sendMessage_raises_on_wide_text :
    (sampleWorld.app.isConnected = true ∧ sampleWorld.app.currentRoom = some "AB12CD" ∧
      tableGet sampleWorld.chatRooms "AB12CD" = some sampleRoom) ∧
    jsTrim "你好" ≠ "" ∧
    asciiHost.btoa (jsTrim "你好") = none ∧
    sendMessage asciiHost "你好" 3000 sampleWorld = Except.error JsError.invalidCharacter :=
  ⟨⟨by decide, by decide, by decide⟩, by decide, by decide, rfl⟩

/-- C3, counterexample: the store holds a room under the empty code whose users
include alice; joining as alice with a blank code field is refused with the
room-code validation error, not with the name-taken error. -/
theorem joinRoom_blank_code_not_name_taken :
    (∃ room, tableGet emptyCodeWorld.chatRooms (asciiHost.toUpperCase (jsTrim " ")) = some room ∧
      jsTrim "alice" ∈ room.users) ∧
    2 ≤ jsLength (jsTrim "alice") ∧
    (joinRoom asciiHost "alice" " " 3000 emptyCodeWorld).errors = ["Please enter a room code"] ∧
    (joinRoom asciiHost "alice" " " 3000 emptyCodeWorld).errors ≠
      emptyCodeWorld.errors ++ ["Username is already taken in this room"] :=
  ⟨⟨{ code := "", messages := [], users := ["alice"], createdAt := 1000, lastActivity := 1000 },
      by decide, by decide⟩, by decide, by decide, by decide⟩

/-- C3, amended: when the trimmed, uppercased code is non-empty and keys an
existing room, and the trimmed username has at least 2 code units and is
already in that room's users, `joinRoom` shows the name-taken error and leaves
the room table and the session fields unchanged. -/
theorem joinRoom_name_taken (h : Host) (w : World) (usernameInput roomCodeInput : String)
    (now : Int) (room : Room)
    (hname : 2 ≤ jsLength (jsTrim usernameInput))
    (hcode : h.toUpperCase (jsTrim roomCodeInput) ≠ "")
    (hroom : tableGet w.chatRooms (h.toUpperCase (jsTrim roomCodeInput)) = some room)
    (htaken : jsTrim usernameInput ∈ room.users) :
    (joinRoom h usernameInput roomCodeInput now w).errors =
      w.errors ++ ["Username is already taken in this room"] ∧
    (joinRoom h usernameInput roomCodeInput now w).chatRooms = w.chatRooms ∧
    (joinRoom h usernameInput roomCodeInput now w).app = w.app := by
  have hne : jsTrim usernameInput ≠ "" := by
    intro he
    rw [he] at hname
    simp [jsLength] at hname
  have hlt : ¬ jsLength (jsTrim usernameInput) < 2 := by omega
  simp [joinRoom, hne, hlt, hcode, getRooms, hroom, htaken, showError, setTimer]

/-- Witness for C3 (amended): a second join as alice with the code typed in lower case. -/
theorem joinRoom_name_taken_witness :
    2 ≤ jsLength (jsTrim " alice ") ∧
    (joinRoom asciiHost " alice " "ab12cd" 3000 sampleWorld).errors =
      sampleWorld.errors ++ ["Username is already taken in this room"] ∧
    (joinRoom asciiHost " alice " "ab12cd" 3000 sampleWorld).chatRooms = sampleWorld.chatRooms ∧
    (joinRoom asciiHost " alice " "ab12cd" 3000 sampleWorld).app = sampleWorld.app :=
  ⟨by decide, joinRoom_name_taken asciiHost sampleWorld " alice " "ab12cd" 3000 sampleRoom
    (by decide) (by decide) (by decide) (by decide)⟩

/-- C4: one run of the periodic sweep at instant `now` removes every room
inactive for over an hour, whatever its users, and every room without users
inactive for over five minutes, and keeps every other room with its record
unchanged; codes absent before stay absent. -/
theorem onRoomCleanup_removes_exactly_expired (now : Int) (w : World)
    (hu : UniqueKeys w.chatRooms) (code : String) :
    (∀ room, tableGet w.chatRooms code = some room → now - room.lastActivity > 3600000 →
      tableGet (onRoomCleanup now w).chatRooms code = none) ∧
    (∀ room, tableGet w.chatRooms code = some room → room.users = [] →
      now - room.lastActivity > 300000 →
      tableGet (onRoomCleanup now w).chatRooms code = none) ∧
    (∀ room, tableGet w.chatRooms code = some room → ¬ now - room.lastActivity > 3600000 →
      ¬ (room.users = [] ∧ now - room.lastActivity > 300000) →
      tableGet (onRoomCleanup now w).chatRooms code = some room) ∧
    (tableGet w.chatRooms code = none → tableGet (onRoomCleanup now w).chatRooms code = none) := by
  have key := tableGet_foldl_cleanupEntry now code w.chatRooms w.chatRooms
  have hiff : (∃ e ∈ w.chatRooms, e.1 = code ∧ Expired now e.2) ↔
      ∃ room, tableGet w.chatRooms code = some room ∧ Expired now room := by
    constructor
    · rintro ⟨⟨k, r⟩, hmem, hk, hexp⟩
      simp only at hk
      subst hk
      exact ⟨r, tableGet_of_mem _ hu _ _ hmem, hexp⟩
    · rintro ⟨room, hget, hexp⟩
      exact ⟨(code, room), mem_of_tableGet _ _ _ hget, rfl, hexp⟩
  simp only [onRoomCleanup, getRooms]
  refine ⟨?_, ?_, ?_, ?_⟩
  · intro room hget ha
    rw [key, if_pos (hiff.mpr ⟨room, hget, Or.inl ha⟩)]
  · intro room hget hb1 hb2
    rw [key, if_pos (hiff.mpr ⟨room, hget, Or.inr ⟨hb1, hb2⟩⟩)]
  · intro room hget hna hnb
    have hno : ¬ ∃ e ∈ w.chatRooms, e.1 = code ∧ Expired now e.2 := by
      rw [hiff]
      rintro ⟨room1, hget1, hexp⟩
      rw [hget] at hget1
      cases hget1
      rcases hexp with ha | hb
      · exact hna ha
      · exact hnb hb
    rw [key, if_neg hno, hget]
  · intro hget
    have hno : ¬ ∃ e ∈ w.chatRooms, e.1 = code ∧ Expired now e.2 := by
      rw [hiff]
      rintro ⟨room1, hget1, _⟩
      rw [hget] at hget1
      cases hget1
    rw [key, if_neg hno, hget]

/-- Witness for C4: the sweep at instant 4000000 over four rooms removes the stale
occupied room and the idle empty room and keeps the other two. -/
theorem onRoomCleanup_removes_exactly_expired_witness :
    UniqueKeys sweepWorld.chatRooms ∧
    tableGet (onRoomCleanup 4000000 sweepWorld).chatRooms "OLD001" = none ∧
    tableGet (onRoomCleanup 4000000 sweepWorld).chatRooms "EMPTY1" = none ∧
    tableGet (onRoomCleanup 4000000 sweepWorld).chatRooms "LIVE01" =
      tableGet sweepWorld.chatRooms "LIVE01" ∧
    tableGet (onRoomCleanup 4000000 sweepWorld).chatRooms "FRESH1" =
      tableGet sweepWorld.chatRooms "FRESH1" :=
  ⟨by unfold UniqueKeys; decide,
    (onRoomCleanup_removes_exactly_expired 4000000 sweepWorld (by unfold UniqueKeys; decide)
      "OLD001").1 oldRoom (by decide) (by decide),
    (onRoomCleanup_removes_exactly_expired 4000000 sweepWorld (by unfold UniqueKeys; decide)
      "EMPTY1").2.1 idleRoom (by decide) (by decide) (by decide),
    by decide, by decide⟩

/-- C5: when the empty-room timer armed for `code` fires, the table is left
unchanged if the room is absent or has a user; otherwise that room is
removed and every other code keeps its record. -/
theorem onEmptyRoomTimer_deletes_only_empty (code : String) (w : World) :
    (tableGet w.chatRooms code = none → onEmptyRoomTimer code w = w) ∧
    (∀ room, tableGet w.chatRooms code = some room → room.users ≠ [] →
      onEmptyRoomTimer code w = w) ∧
    (∀ room, tableGet w.chatRooms code = some room → room.users = [] →
      tableGet (onEmptyRoomTimer code w).chatRooms code = none ∧
      ∀ other, other ≠ code →
        tableGet (onEmptyRoomTimer code w).chatRooms other = tableGet w.chatRooms other) := by
  refine ⟨?_, ?_, ?_⟩
  · intro hget
    simp [onEmptyRoomTimer, getRooms, hget]
  · intro room hget husers
    simp [onEmptyRoomTimer, getRooms, hget, husers]
  · intro room hget husers
    simp only [onEmptyRoomTimer, getRooms, hget, husers, List.length_nil, if_true]
    exact ⟨tableGet_tableDelete_self _ _, fun other hne => tableGet_tableDelete_ne _ _ _ hne⟩

/-- Witness for C5: the timer leaves an occupied room and deletes an empty one. -/
theorem onEmptyRoomTimer_deletes_only_empty_witness :
    onEmptyRoomTimer "LIVE01" sweepWorld = sweepWorld ∧
    tableGet (onEmptyRoomTimer "FRESH1" sweepWorld).chatRooms "FRESH1" = none ∧
    tableGet (onEmptyRoomTimer "FRESH1" sweepWorld).chatRooms "LIVE01" =
      tableGet sweepWorld.chatRooms "LIVE01" :=
  ⟨(onEmptyRoomTimer_deletes_only_empty "LIVE01" sweepWorld).2.1 liveRoom (by decide)
      (by decide),
    ((onEmptyRoomTimer_deletes_only_empty "FRESH1" sweepWorld).2.2 freshRoom (by decide)
      (by decide)).1,
    ((onEmptyRoomTimer_deletes_only_empty "FRESH1" sweepWorld).2.2 freshRoom (by decide)
      (by decide)).2 "LIVE01" (by decide)⟩

/-- C6: on a connected session of user `u` whose room is stored, `leaveRoom`
leaves the stored room with the plain system message `u left the room` as its
newest message (appended, under the 50-message cap), with `u` filtered out of
the users in order, and with `lastActivity` set to `now`; the only timer the
call leaves armed is the five-minute empty-room timer of that room, and it is
armed exactly when the resulting users list is empty; the session ends with
the connected flag false and no current room. -/
theorem leaveRoom_spec (h : Host) (now : Int) (w : World) (cur : String) (room : Room)
    (hconn : Connected w cur) (hroom : RoomAt w cur room) (hok : TimersOk w) :
    ∃ r, RoomAt (leaveRoom h now w) cur r ∧
      r.messages =
        lastN 50 (room.messages ++
          [systemMessage h (w.app.username ++ " left the room") now]) ∧
      (room.messages.length < 50 →
        r.messages =
          room.messages ++ [systemMessage h (w.app.username ++ " left the room") now]) ∧
      (systemMessage h (w.app.username ++ " left the room") now).content =
        w.app.username ++ " left the room" ∧
      (systemMessage h (w.app.username ++ " left the room") now).type =
        MessageType.system ∧
      r.users = room.users.filter (fun user => user != w.app.username) ∧
      r.lastActivity = now ∧
      (leaveRoom h now w).timers.filter (fun t => decide (w.lastTimerId < t.id)) =
        (if r.users = [] then [⟨w.lastTimerId + 1, now + 300000, TimerKind.emptyRoom cur⟩]
         else []) ∧
      (leaveRoom h now w).app.isConnected = false ∧
      (leaveRoom h now w).app.currentRoom = none := by
  obtain ⟨hc, hcur, hne⟩ := hconn
  have hcode : room.code = cur := hroom.2
  have hL : leaveRoom h now w = resetToRoomSetup (handleUserLeaving h now w) := by
    simp [leaveRoom, hc, hcur, truthyStr_some hne]
  have hold : w.timers.filter (fun t => decide (w.lastTimerId < t.id)) = [] := by
    rw [List.filter_eq_nil_iff]
    intro t ht
    have := hok.pending_le t ht
    simp only [decide_eq_true_eq]
    omega
  rw [hL, handleUserLeaving_eq h now w cur room hcur hne hroom]
  obtain ⟨hic, hcr, _⟩ := resetToRoomSetup_session
    (saveRoom
        { room with
          messages := pushCapped room.messages
            (systemMessage h (w.app.username ++ " left the room") now)
          users := room.users.filter (fun user => user != w.app.username)
          lastActivity := now }
        (if (room.users.filter (fun user => user != w.app.username)).length = 0 then
          startEmptyRoomTimer (some cur) now
            (saveRoom
              { room with
                messages := pushCapped room.messages
                  (systemMessage h (w.app.username ++ " left the room") now)
                lastActivity := now } w)
        else
          saveRoom
            { room with
              messages := pushCapped room.messages
                (systemMessage h (w.app.username ++ " left the room") now)
              lastActivity := now } w))
  refine ⟨{ room with
      messages := pushCapped room.messages
        (systemMessage h (w.app.username ++ " left the room") now)
      users := room.users.filter (fun user => user != w.app.username)
      lastActivity := now }, ⟨?_, hcode⟩, ?_, ?_, rfl, rfl, rfl, rfl, ?_, hic, hcr⟩
  · rw [resetToRoomSetup_chatRooms]
    have := saveRoom_get_self
      { room with
        messages := pushCapped room.messages
          (systemMessage h (w.app.username ++ " left the room") now)
        users := room.users.filter (fun user => user != w.app.username)
        lastActivity := now }
      (if (room.users.filter (fun user => user != w.app.username)).length = 0 then
          startEmptyRoomTimer (some cur) now
            (saveRoom
              { room with
                messages := pushCapped room.messages
                  (systemMessage h (w.app.username ++ " left the room") now)
                lastActivity := now } w)
        else
          saveRoom
            { room with
              messages := pushCapped room.messages
                (systemMessage h (w.app.username ++ " left the room") now)
              lastActivity := now } w)
    simpa [hcode] using this
  · simp [pushCapped_eq_lastN]
  · intro hlt
    simp only [pushCapped_eq_lastN]
    exact lastN_of_length_le 50 _ (by simp; omega)
  · by_cases hempty : room.users.filter (fun user => user != w.app.username) = []
    · have hlen : (room.users.filter (fun user => user != w.app.username)).length = 0 := by
        rw [hempty]; rfl
      rw [if_pos hlen]
      rw [resetToRoomSetup_timers_filter_gt
        (saveRoom _ (startEmptyRoomTimer (some cur) now (saveRoom _ w))) w.lastTimerId
        hok.roomTimeout_le hok.interval_le hok.emptyRoom_le]
      simp only [saveRoom, startEmptyRoomTimer, setTimer, getRooms, propertyKey,
        List.filter_append, hold, List.nil_append, hempty, if_true]
      simp
    · have hlen : ¬ (room.users.filter (fun user => user != w.app.username)).length = 0 := by
        intro hz
        exact hempty (List.length_eq_zero.mp hz)
      rw [if_neg hlen]
      rw [resetToRoomSetup_timers_filter_gt (saveRoom _ (saveRoom _ w)) w.lastTimerId
        hok.roomTimeout_le hok.interval_le hok.emptyRoom_le]
      simp only [saveRoom, getRooms, hold, hempty, if_false]

/-- Witness for C6: alice leaves the room she shares with bob. -/
theorem leaveRoom_spec_witness :
    Connected sampleWorld "AB12CD" ∧ RoomAt sampleWorld "AB12CD" sampleRoom ∧
    TimersOk sampleWorld ∧
    ∃ r, RoomAt (leaveRoom asciiHost 5000 sampleWorld) "AB12CD" r ∧
      r.messages =
        lastN 50 (sampleRoom.messages ++
          [systemMessage asciiHost (sampleWorld.app.username ++ " left the room") 5000]) ∧
      (sampleRoom.messages.length < 50 →
        r.messages =
          sampleRoom.messages ++
            [systemMessage asciiHost (sampleWorld.app.username ++ " left the room") 5000]) ∧
      (systemMessage asciiHost (sampleWorld.app.username ++ " left the room") 5000).content =
        sampleWorld.app.username ++ " left the room" ∧
      (systemMessage asciiHost (sampleWorld.app.username ++ " left the room") 5000).type =
        MessageType.system ∧
      r.users = sampleRoom.users.filter (fun user => user != sampleWorld.app.username) ∧
      r.lastActivity = 5000 ∧
      (leaveRoom asciiHost 5000 sampleWorld).timers.filter
          (fun t => decide (sampleWorld.lastTimerId < t.id)) =
        (if r.users = [] then
          [⟨sampleWorld.lastTimerId + 1, 5000 + 300000, TimerKind.emptyRoom "AB12CD"⟩]
         else []) ∧
      (leaveRoom asciiHost 5000 sampleWorld).app.isConnected = false ∧
      (leaveRoom asciiHost 5000 sampleWorld).app.currentRoom = none :=
  ⟨⟨by decide, by decide, by decide⟩, ⟨by decide, by decide⟩, sampleWorld_timersOk,
    leaveRoom_spec asciiHost 5000 sampleWorld "AB12CD" sampleRoom
      ⟨by decide, by decide, by decide⟩ ⟨by decide, by decide⟩ sampleWorld_timersOk⟩

/-- C7, failing input: alice is connected to a stored room when the page
becomes hidden (or is closed).  The listener runs `handleUserLeaving()` only:
alice is removed from the room's users, yet the connected flag stays true and
the current room stays set, whereas `leaveRoom()` on the same page ends with
the flag false and no current room. -/
theorem onVisibilityChange_stays_connected :
    (sampleWorld.app.isConnected = true ∧ sampleWorld.app.currentRoom = some "AB12CD") ∧
    (onVisibilityChange asciiHost true 5000 sampleWorld).app.isConnected = true ∧
    (onVisibilityChange asciiHost true 5000 sampleWorld).app.currentRoom = some "AB12CD" ∧
    (onBeforeUnload asciiHost 5000 sampleWorld).app.isConnected = true ∧
    (onBeforeUnload asciiHost 5000 sampleWorld).app.currentRoom = some "AB12CD" ∧
    (tableGet (onVisibilityChange asciiHost true 5000 sampleWorld).chatRooms "AB12CD").map
      (fun r => r.users) = some ["bob"] ∧
    (leaveRoom asciiHost 5000 sampleWorld).app.isConnected = false ∧
    (leaveRoom asciiHost 5000 sampleWorld).app.currentRoom = none :=
  ⟨⟨by decide, by decide⟩, by decide, by decide, by decide, by decide, by decide, by decide,
    by decide⟩

/-- C8, counterexample: a stored table cut off in the middle cannot be parsed,
and `getRooms` raises the `SyntaxError` of `JSON.parse` instead of returning
the empty table; `saveRoom` and a `joinRoom` whose inputs are valid raise it
too instead of running as on an empty table. -/
theorem getRooms_raises_on_truncated_table :
    jsonParse truncatedTable = Except.error JsError.syntaxError ∧
    Stored.getRooms (some truncatedTable) = Except.error JsError.syntaxError ∧
    Stored.getRooms (some truncatedTable) ≠ Except.ok (Json.obj []) ∧
    Stored.saveRoom (some truncatedTable) sampleRoom (newChatApp [] 0) =
      Except.error JsError.syntaxError ∧
    Stored.joinRoom asciiHost (some truncatedTable) "carol" "ab12cd" 3000 (newChatApp [] 0) =
      Except.error JsError.syntaxError := by
  refine ⟨rfl, rfl, ?_, rfl, rfl⟩
  intro hc
  have hr : Stored.getRooms (some truncatedTable) = Except.error JsError.syntaxError := rfl
  rw [hr] at hc
  cases hc

/-- C8, amended: `getRooms` returns the empty table when the stored value is
absent or the empty string, and `saveRoom`, the sweep, `joinRoom` and the
change detection then run as on an empty table; on every other stored value
`getRooms` returns what `JSON.parse` returns, and when that value cannot be
parsed `getRooms` raises the `SyntaxError`, and so do `saveRoom`, the sweep,
`joinRoom` once its input checks have passed, and the change detection of a
connected session. -/
theorem getRooms_empty_only_when_absent :
    Stored.getRooms none = Except.ok (Json.obj []) ∧
    Stored.getRooms (some "") = Except.ok (Json.obj []) ∧
    (∀ text : String, text ≠ "" → Stored.getRooms (some text) = jsonParse text) ∧
    (∀ (text : String) (e : JsError), text ≠ "" → jsonParse text = Except.error e →
      Stored.getRooms (some text) = Except.error e ∧
      (∀ (room : Room) (w : World), Stored.saveRoom (some text) room w = Except.error e) ∧
      (∀ (now : Int) (w : World), Stored.onRoomCleanup (some text) now w = Except.error e) ∧
      (∀ (h : Host) (usernameInput roomCodeInput : String) (now : Int) (w : World),
        2 ≤ jsLength (jsTrim usernameInput) → h.toUpperCase (jsTrim roomCodeInput) ≠ "" →
        Stored.joinRoom h (some text) usernameInput roomCodeInput now w = Except.error e) ∧
      (∀ (rendered : Nat) (w : World) (cur : String), Connected w cur →
        Stored.onStorage (some text) (some "chatRooms") rendered w = Except.error e)) ∧
    (∀ stored : Option String, stored = none ∨ stored = some "" →
      (∀ (room : Room) (w : World),
        Stored.saveRoom stored room w =
          Except.ok (some (saveRoom room { w with chatRooms := [] }))) ∧
      (∀ (now : Int) (w : World),
        Stored.onRoomCleanup stored now w =
          Except.ok (some (onRoomCleanup now { w with chatRooms := [] }))) ∧
      (∀ (h : Host) (usernameInput roomCodeInput : String) (now : Int) (w : World),
        2 ≤ jsLength (jsTrim usernameInput) → h.toUpperCase (jsTrim roomCodeInput) ≠ "" →
        Stored.joinRoom h stored usernameInput roomCodeInput now w =
          Except.ok (some (joinRoom h usernameInput roomCodeInput now
            { w with chatRooms := [] }))) ∧
      (∀ (rendered : Nat) (w : World) (cur : String), Connected w cur →
        Stored.onStorage stored (some "chatRooms") rendered w =
          Except.ok (some (onStorage (some "chatRooms") rendered
            { w with chatRooms := [] })))) := by
  have hparse : ∀ text : String, text ≠ "" → Stored.getRooms (some text) = jsonParse text := by
    intro text hne
    simp only [Stored.getRooms, hne, if_false]
  have hname : ∀ u : String, 2 ≤ jsLength (jsTrim u) →
      jsTrim u ≠ "" ∧ ¬ jsLength (jsTrim u) < 2 := by
    intro u hu
    refine ⟨?_, by omega⟩
    intro he
    rw [he] at hu
    simp [jsLength] at hu
  refine ⟨rfl, rfl, hparse, ?_, ?_⟩
  · intro text e hne herr
    have hget : Stored.getRooms (some text) = Except.error e := by rw [hparse text hne, herr]
    refine ⟨hget, ?_, ?_, ?_, ?_⟩
    · intro room w
      simp only [Stored.saveRoom, Stored.readingRooms, hget]
    · intro now w
      simp only [Stored.onRoomCleanup, Stored.readingRooms, hget]
    · intro h u c now w hu hc
      obtain ⟨h1, h2⟩ := hname u hu
      simp only [Stored.joinRoom, h1, h2, hc, if_false, Stored.readingRooms, hget]
    · intro rendered w cur hconn
      obtain ⟨hic, hcur, hcne⟩ := hconn
      simp [Stored.onStorage, hic, hcur, truthyStr_some hcne, Stored.readingRooms, hget]
  · intro stored hstored
    have hget : Stored.getRooms stored = Except.ok (Json.obj []) := by
      rcases hstored with rfl | rfl <;> rfl
    have htable : jsonTable (Json.obj []) = some [] := rfl
    refine ⟨?_, ?_, ?_, ?_⟩
    · intro room w
      simp only [Stored.saveRoom, Stored.readingRooms, hget, htable, Option.map_some']
    · intro now w
      simp only [Stored.onRoomCleanup, Stored.readingRooms, hget, htable, Option.map_some']
    · intro h u c now w hu hc
      obtain ⟨h1, h2⟩ := hname u hu
      simp only [Stored.joinRoom, h1, h2, hc, if_false, Stored.readingRooms, hget, htable,
        Option.map_some']
    · intro rendered w cur hconn
      obtain ⟨hic, hcur, hcne⟩ := hconn
      simp [Stored.onStorage, hic, hcur, truthyStr_some hcne, Stored.readingRooms, hget, htable]

/-- Witness for C8 (amended): on a stored text that is not JSON, `getRooms`, `saveRoom`,
the sweep, a valid `joinRoom` and the change detection of alice's page raise. -/
theorem getRooms_empty_only_when_absent_witness :
    Stored.getRooms (some "not json") = Except.error JsError.syntaxError ∧
    Stored.saveRoom (some "not json") sampleRoom sampleWorld =
      Except.error JsError.syntaxError ∧
    Stored.onRoomCleanup (some "not json") 4000000 sampleWorld =
      Except.error JsError.syntaxError ∧
    Stored.joinRoom asciiHost (some "not json") "carol" "ab12cd" 3000 sampleWorld =
      Except.error JsError.syntaxError ∧
    Stored.onStorage (some "not json") (some "chatRooms") 2 sampleWorld =
      Except.error JsError.syntaxError :=
  ⟨(getRooms_empty_only_when_absent.2.2.2.1 "not json" JsError.syntaxError
      (by decide) rfl).1,
    (getRooms_empty_only_when_absent.2.2.2.1 "not json" JsError.syntaxError
      (by decide) rfl).2.1 sampleRoom sampleWorld,
    (getRooms_empty_only_when_absent.2.2.2.1 "not json" JsError.syntaxError
      (by decide) rfl).2.2.1 4000000 sampleWorld,
    (getRooms_empty_only_when_absent.2.2.2.1 "not json" JsError.syntaxError
      (by decide) rfl).2.2.2.1 asciiHost "carol" "ab12cd" 3000 sampleWorld
      (by decide) (by decide),
    (getRooms_empty_only_when_absent.2.2.2.1 "not json" JsError.syntaxError
      (by decide) rfl).2.2.2.2 2 sampleWorld "AB12CD" ⟨by decide, by decide, by decide⟩⟩

/-- C9, failing input: `Math.random()` returns 0.5, whose base-36 text is `0.i`;
`generateRoomCode` returns the one-character code `I`, and `createRoom` stores
the room under it.  With `Math.random() = 0` the text is `0` and the code is
empty. -/
theorem generateRoomCode_short_code :
    toString36 ⟨1, 1⟩ = some "0.i" ∧
    generateRoomCode asciiHost "0.i" = "I" ∧
    jsLength (generateRoomCode asciiHost "0.i") = 1 ∧
    (createRoom asciiHost "alice" "0.i" 1000 (newChatApp [] 0)).chatRooms.map Prod.fst = ["I"] ∧
    toString36 ⟨0, 1⟩ = some "0" ∧
    generateRoomCode asciiHost "0" = "" :=
  ⟨by decide, by decide, by decide, by decide, by decide, by decide⟩

/-- Restart of the countdown for the texts `btoa` accepts: on a connected
session whose room is stored, after `sendMessage` with such a non-blank text
at instant `now` the stored room has `lastActivity = now`, and the pending
inactivity timers of the page are exactly one, the new handle kept in
`roomTimeoutId`, due at `now + 3600000`; the previously armed one is no
longer pending. -/
theorem sendMessage_restarts_inactivity_timer (h : Host) (text : String) (now : Int) (w : World)
    (cur : String) (room : Room) (enc : String) (hconn : Connected w cur)
    (hroom : RoomAt w cur room) (hok : TimersOk w) (htext : jsTrim text ≠ "")
    (henc : h.btoa (jsTrim text) = some enc) :
    ∃ w1, sendMessage h text now w = Except.ok w1 ∧
      (∃ r, RoomAt w1 cur r ∧ r.lastActivity = now) ∧
      w1.app.roomTimeoutId = some (w.lastTimerId + 1) ∧
      w1.timers.filter (fun t => decide (t.kind = TimerKind.roomTimeout)) =
        [⟨w.lastTimerId + 1, now + 3600000, TimerKind.roomTimeout⟩] ∧
      (∀ old, w.app.roomTimeoutId = some old → ∀ t ∈ w1.timers, t.id ≠ old ∨ old = 0) := by
  obtain ⟨w1, hsend, _, _, hat⟩ :=
    sendMessage_spec h text now w cur room enc hconn hroom htext henc
  have heq := sendMessage_eq h text now w cur room enc hconn hroom htext henc
  have hw1 : w1 = startRoomTimer now
      (saveRoom (roomAfterSend h room w.app.username enc now)
        (saveRoom (roomAfterSend h room w.app.username enc now) w)) := by
    rw [heq] at hsend
    cases hsend
    rfl
  have hstart := startRoomTimer_roomTimeout now
    (saveRoom (roomAfterSend h room w.app.username enc now)
      (saveRoom (roomAfterSend h room w.app.username enc now) w)) hok.tracked
  rw [← hw1] at hstart
  refine ⟨w1, hsend, ⟨_, hat, rfl⟩, hstart.1, hstart.2, ?_⟩
  intro old hold t ht
  by_cases hz : old = 0
  · exact Or.inr hz
  · left
    rw [hw1] at ht
    simp only [startRoomTimer, setTimer, clearIfSet_lastTimerId, clearIfSet_app,
      List.mem_append, List.mem_singleton] at ht
    have hle := hok.roomTimeout_le old hold
    have hlast : (saveRoom (roomAfterSend h room w.app.username enc now)
        (saveRoom (roomAfterSend h room w.app.username enc now) w)).lastTimerId =
          w.lastTimerId := rfl
    rcases ht with (hm | rfl) | rfl
    · rw [mem_clearIfSet_timers, mem_clearIfSet_timers] at hm
      obtain ⟨⟨_, hnot⟩, _⟩ := hm
      intro hc
      apply hnot
      have hold1 : (saveRoom (roomAfterSend h room w.app.username enc now)
          (saveRoom (roomAfterSend h room w.app.username enc now) w)).app.roomTimeoutId =
            some old := hold
      exact ⟨by rw [hold1, hc], by rw [hc]; exact hz⟩
    · show (saveRoom _ (saveRoom _ w)).lastTimerId + 1 ≠ old
      omega
    · show (saveRoom _ (saveRoom _ w)).lastTimerId + 1 + 1 ≠ old
      omega

/-- On the page of alice, a send of an ASCII text at instant 7000 while her
earlier inactivity timer is pending leaves one inactivity timer, due at
3607000. -/
theorem sendMessage_restarts_inactivity_timer_on_sample :
    TimersOk sampleWorld ∧ jsTrim " hello " ≠ "" ∧
    ∃ w1, sendMessage asciiHost " hello " 7000 sampleWorld = Except.ok w1 ∧
      (∃ r, RoomAt w1 "AB12CD" r ∧ r.lastActivity = 7000) ∧
      w1.app.roomTimeoutId = some (sampleWorld.lastTimerId + 1) ∧
      w1.timers.filter (fun t => decide (t.kind = TimerKind.roomTimeout)) =
        [⟨sampleWorld.lastTimerId + 1, 7000 + 3600000, TimerKind.roomTimeout⟩] ∧
      (∀ old, sampleWorld.app.roomTimeoutId = some old →
        ∀ t ∈ w1.timers, t.id ≠ old ∨ old = 0) :=
  ⟨sampleWorld_timersOk, by decide,
    sendMessage_restarts_inactivity_timer asciiHost " hello " 7000 sampleWorld "AB12CD" sampleRoom
      "aGVsbG8=" ⟨by decide, by decide, by decide⟩ ⟨by decide, by decide⟩ sampleWorld_timersOk
      (by decide) (by decide)⟩

/-- C10, failing input: alice, connected to her stored room (last active at
instant 2000, inactivity timer due at 3602000), sends the non-blank text
`€5` at instant 9000.  `btoa` raises inside `encryptMessage`, before
`saveMessage` and `updateRoomActivity` are reached: the handler ends with the
exception, `lastActivity` stays 2000 and the pending inactivity timer stays
the old one, not one due at 3609000. -/
theorem sendMessage_raises_before_activity_update :
    (sampleWorld.app.isConnected = true ∧ sampleWorld.app.currentRoom = some "AB12CD" ∧
      (tableGet sampleWorld.chatRooms "AB12CD").map (fun r => r.lastActivity) = some 2000) ∧
    jsTrim "€5" ≠ "" ∧
    sendMessage asciiHost "€5" 9000 sampleWorld = Except.error JsError.invalidCharacter ∧
    sampleWorld.timers.filter (fun t => decide (t.kind = TimerKind.roomTimeout)) =
      [⟨2, 3602000, TimerKind.roomTimeout⟩] :=
  ⟨⟨by decide, by decide, by decide⟩, by decide, rfl, by decide⟩

end ChatZ
